import Mathlib

/-
Shallow embedding of src/chronos.py (class Chronos): the harmonic feature
builder (transform_data_), the fit dispatch, the predict pipeline, the
future-frame builder (make_future_dataframe) and the seasonality
decomposition (get_*_seasonality / get_*_seasonality_point), together with
proofs of the behavioural properties stated about them.

Data frames are modelled column-wise as association lists from column name
to a list of cell values.  A cell is either a number, a NaN marker, or a
timestamp.  The float64 scalars of the source are modelled by a scalar
type α, instantiated with the real numbers in the theorems; the numpy
transcendental functions np.sin and np.cos and the constant math.pi are an
external numeric library from the point of view of the source, and are
passed to the embedded functions as an explicit operations record, which
the theorems instantiate with Real.sin, Real.cos and Real.pi.  The
rational-valued reduction of the predict pipeline (sample means and torch
kthvalue order statistics) is modelled over the rationals so that concrete
runs are kernel-computable.
-/

/-- Model of a pandas timestamp: the integer epoch nanoseconds together with
the three calendar attributes read by the source (dt.dayofweek with
0 = Monday, dt.day, dt.dayofyear). -/
structure Timestamp where
  epochNanos : ℤ
  dayofweek : ℕ
  day : ℕ
  dayofyear : ℕ
deriving DecidableEq

/-- A dataframe cell: a float64 number, the NaN marker (np.nan), or a
datetime value. -/
inductive Val (α : Type) where
  | real (x : α) : Val α
  | nan : Val α
  | ts (t : Timestamp) : Val α

/-- A dataframe, column-wise: an ordered list of (column name, cell list)
pairs, as produced and consumed by the source. -/
abbrev DataFrame (α : Type) := List (String × List (Val α))

/-- The numeric functions the source takes from numpy and math: sin, cos
and the constant pi.  The theorems instantiate this record with the real
sine, cosine and pi. -/
structure NumpyOps (α : Type) where
  sin : α → α
  cos : α → α
  pi : α

/-- Day-of-week of a cell (0 = Monday), as read by dt.dayofweek on a
datetime column.  The source raises AttributeError through the .dt accessor
when the column is not datetime-like, which Chronos.transformError models;
the 0 default here (and in dayR, dayofyearR and epochFloatDays) is never
exercised on the non-raising range. -/
def Val.dayofweekR {α : Type} [LinearOrderedField α] : Val α → α
  | .ts t => t.dayofweek
  | _ => 0

/-- Day-of-month of a cell (1-based), as read by dt.day. -/
def Val.dayR {α : Type} [LinearOrderedField α] : Val α → α
  | .ts t => t.day
  | _ => 0

/-- Day-of-year of a cell (1-based), as read by dt.dayofyear. -/
def Val.dayofyearR {α : Type} [LinearOrderedField α] : Val α → α
  | .ts t => t.dayofyear
  | _ => 0

/-- The timestamp converted to fractional days since the epoch, as in
line 71 of the source: values.astype(float)/(1e9*60*60*24). -/
def Val.epochFloatDays {α : Type} [LinearOrderedField α] : Val α → α
  | .ts t => (t.epochNanos : α) / ((1000000000 : α) * 60 * 60 * 24)
  | _ => 0

/-- Whether a cell is a datetime value; a pandas column supports the .dt
accessor used on line 66 exactly when it is datetime-like, modelled here as
all of its cells being timestamps (the empty column is treated as
datetime-like). -/
def Val.isTs {α : Type} : Val α → Bool
  | .ts _ => true
  | _ => false

/-- Column lookup, df[name]: the first column carrying the name. -/
def getCol {α : Type} (df : DataFrame α) (name : String) : Option (List (Val α)) :=
  (df.find? (fun c => c.1 == name)).map Prod.snd

/-- Column lookup with empty default; this total function is only the
value-level reading.  A missing column raises KeyError in pandas, which
Chronos.transformError and the predict embedding model explicitly, so the
default is never exercised on the non-raising range. -/
def getColD {α : Type} (df : DataFrame α) (name : String) : List (Val α) :=
  (getCol df name).getD []

/-- Column assignment, df[name] = vals: pandas overwrites the column in
place when the name exists and appends a new last column otherwise. -/
def setCol {α : Type} (df : DataFrame α) (name : String) (vals : List (Val α)) : DataFrame α :=
  if df.any (fun c => c.1 == name) then
    df.map (fun c => if c.1 == name then (name, vals) else c)
  else
    df ++ [(name, vals)]

/-- df.drop(names, axis=1): removes the named columns. -/
def dropCols {α : Type} (df : DataFrame α) (names : List String) : DataFrame α :=
  df.filter (fun c => !(names.contains c.1))

/-- Row count of a frame, taken from its leading column. -/
def nRows {α : Type} (df : DataFrame α) : ℕ :=
  match df.head? with
  | some c => c.2.length
  | none => 0

/-- An observation series as a two-column frame: the time column holding
timestamps and the target column holding (possibly NaN) values.  This is
the frame shape the repository feeds to fit, predict and
make_future_dataframe. -/
def mkSeries {α : Type} (timeCol targetCol : String) (ts : List Timestamp) (ys : List (Val α)) :
    DataFrame α :=
  [(timeCol, ts.map Val.ts), (targetCol, ys)]

/-- The model configuration captured by Chronos.__init__ (lines 33-53):
the method selector and column names, the three harmonic orders, the
learning rate and the iteration budget. -/
structure Chronos where
  method_ : String
  time_col_ : String
  target_col_ : String
  year_seasonality_order_ : ℕ
  month_seasonality_order_ : ℕ
  weekly_seasonality_order_ : ℕ
  lr_ : ℚ
  n_iter_ : ℕ
deriving DecidableEq

/-- Name of the sine column for a tag and harmonic order, as in the
f-strings of lines 78, 86, 93. -/
def sinName (tag : String) (i : ℕ) : String :=
  tag ++ "_sin_" ++ toString i

/-- Name of the cosine column for a tag and harmonic order. -/
def cosName (tag : String) (i : ℕ) : String :=
  tag ++ "_cos_" ++ toString i

/-- One iteration of the seasonality loops of transform_data_ (lines 75-94):
compute the cycle position for order i from the day-index column and assign
the sine and cosine columns. -/
def harmonicStep {α : Type} [LinearOrderedField α] (np : NumpyOps α) (df : DataFrame α)
    (tag : String) (i : ℕ) (dayIdx : List α) (period : α) : DataFrame α :=
  let cyc := dayIdx.map (fun dv => (i : α) * 2 * np.pi * dv / period)
  let d1 := setCol df (sinName tag i) (cyc.map (fun p => Val.real (np.sin p)))
  setCol d1 (cosName tag i) (cyc.map (fun p => Val.real (np.cos p)))

/-- The for-loop over harmonic orders 1..order for one frequency tag. -/
def harmonicFold {α : Type} [LinearOrderedField α] (np : NumpyOps α) (df : DataFrame α)
    (tag : String) (order : ℕ) (dayIdx : List α) (period : α) : DataFrame α :=
  (List.range order).foldl (fun acc k => harmonicStep np acc tag (k + 1) dayIdx period) df

/-- Chronos.transform_data_ (lines 57-104), value level: the input frame is
copied (line 65; values are immutable here, so the copy is the frame
itself), the three helper day-index columns are assigned, the time column
is replaced by fractional days since the epoch, the three blocks of
harmonic sine/cosine columns are assigned in the order yearly, monthly,
weekly, a constant column is inserted at position 0, and the helper columns
are dropped.  The exceptions the method can raise (KeyError or
AttributeError at line 66, ValueError at line 98) are modelled by
Chronos.transformError; this function gives the returned frame on the
non-raising range, and Chronos.transform_data_run ties the two together. -/
def Chronos.transform_data_ {α : Type} [LinearOrderedField α] (self : Chronos) (np : NumpyOps α)
    (data : DataFrame α) : DataFrame α :=
  let internal_data := data
  let tsVals := getColD internal_data self.time_col_
  let weekday : List α := tsVals.map (fun v => v.dayofweekR)
  let monthday : List α := tsVals.map (fun v => v.dayR - 1)
  let yearday : List α := tsVals.map (fun v => v.dayofyearR - 1)
  let d1 := setCol internal_data ("weekday") (weekday.map Val.real)
  let d2 := setCol d1 ("monthday") (monthday.map Val.real)
  let d3 := setCol d2 ("yearday") (yearday.map Val.real)
  let d4 := setCol d3 self.time_col_ (tsVals.map (fun v => Val.real v.epochFloatDays))
  let d5 := harmonicFold np d4 ("yearly") self.year_seasonality_order_ yearday 366
  let d6 := harmonicFold np d5 ("monthly") self.month_seasonality_order_ monthday 31
  let d7 := harmonicFold np d6 ("weekly") self.weekly_seasonality_order_ weekday 7
  let d8 := ("CONST", List.replicate (nRows d7) (Val.real 1)) :: d7
  dropCols d8 [("weekday"), ("monthday"), ("yearday")]

/-- State-passing model of a call self.transform_data_(data): the first
component is the returned frame, the second is the state of the frame the
caller passed in after the call returns.  Line 65 copies the input and
every subsequent column write of the method targets the copy, so the frame
held by the caller is left untouched. -/
def Chronos.transform_data_call {α : Type} [LinearOrderedField α] (self : Chronos)
    (np : NumpyOps α) (data : DataFrame α) : DataFrame α × DataFrame α :=
  (self.transform_data_ np data, data)

/-- The exception behaviour of Chronos.transform_data_ (lines 57-104), in
source order: selecting a missing time column raises KeyError (line 66,
internal_data[self.time_col_]); selecting a duplicated time-column label
(the selection is then a frame, not a series) or applying the .dt accessor
to a non-datetime column raises AttributeError (line 66); inserting the
constant column when a CONST column already exists raises ValueError
(line 98, pandas insert refuses duplicate names).  none means the method
returns normally, with the frame computed by transform_data_. -/
def Chronos.transformError {α : Type} (self : Chronos) (data : DataFrame α) : Option String :=
  if (data.map Prod.fst).count self.time_col_ = 0 then
    some ("KeyError: " ++ self.time_col_)
  else if 2 ≤ (data.map Prod.fst).count self.time_col_
      ∨ ¬ (getColD data self.time_col_).all Val.isTs then
    some ("AttributeError: Can only use .dt accessor with datetimelike values")
  else if (data.map Prod.fst).contains "CONST" then
    some ("ValueError: cannot insert CONST, already exists")
  else
    none

/-- The call-level embedding of self.transform_data_(data): the raised
exception when transformError fires, the transformed frame otherwise. -/
def Chronos.transform_data_run {α : Type} [LinearOrderedField α] (self : Chronos)
    (np : NumpyOps α) (data : DataFrame α) : Except String (DataFrame α) :=
  match self.transformError data with
  | some e => Except.error e
  | none => Except.ok (self.transform_data_ np data)

/-- The sine/cosine column names generated for one frequency tag at the
configured order, in generation order. -/
def harmonicNames (tag : String) (order : ℕ) : List String :=
  (List.range order).flatMap (fun k => [sinName tag (k + 1), cosName tag (k + 1)])

/-- Every column name transform_data_ can create: the constant column, the
three helper columns and the harmonic columns of the three frequencies. -/
def Chronos.generatedNames (self : Chronos) : List String :=
  ["CONST", "weekday", "monthday", "yearday"]
    ++ harmonicNames ("yearly") self.year_seasonality_order_
    ++ harmonicNames ("monthly") self.month_seasonality_order_
    ++ harmonicNames ("weekly") self.weekly_seasonality_order_

/-- Well-formedness of a configuration: the user-chosen time and target
column names are distinct and collide with none of the generated feature
names, and the generated names are pairwise distinct.  This holds for every
configuration the source intends (the defaults are ds and y) and is the
precondition under which the column-count and column-order facts hold. -/
def Chronos.Sensible (self : Chronos) : Prop :=
  self.time_col_ ∉ self.generatedNames ∧ self.target_col_ ∉ self.generatedNames ∧
    self.time_col_ ≠ self.target_col_ ∧ self.generatedNames.Nodup

instance (self : Chronos) : Decidable self.Sensible := by
  unfold Chronos.Sensible
  infer_instance

/-- The builder-added feature columns of a transformed frame: every column
other than the two columns of the input series. -/
def featureColumns {α : Type} (self : Chronos) (df : DataFrame α) : DataFrame α :=
  df.filter (fun c => !(c.1 == self.time_col_) && !(c.1 == self.target_col_))

/-- The harmonic columns produced for one tag, as an explicit list: for
each order the sine column then the cosine column of the cycle positions
computed from the day-index column. -/
def harmonicColumns {α : Type} [LinearOrderedField α] (np : NumpyOps α) (tag : String)
    (order : ℕ) (dayIdx : List α) (period : α) : DataFrame α :=
  (List.range order).flatMap (fun k =>
    [(sinName tag (k + 1),
        (dayIdx.map (fun dv => ((k + 1 : ℕ) : α) * 2 * np.pi * dv / period)).map
          (fun p => Val.real (np.sin p))),
     (cosName tag (k + 1),
        (dayIdx.map (fun dv => ((k + 1 : ℕ) : α) * 2 * np.pi * dv / period)).map
          (fun p => Val.real (np.cos p)))])

/-- Outcome of the method dispatch in Chronos.fit (lines 131-151). -/
inductive FitOutcome where
  | pointEstimate (m : String)
  | mcmcBranch
  | attributeError (attr : String)
  | fallThrough
deriving DecidableEq

/-- The value of the instance attribute named method (without the trailing
underscore).  The class only ever assigns self.method_ (line 43); no
statement in the source assigns self.method, so reading it raises
AttributeError, modelled by none. -/
def Chronos.methodAttr (_self : Chronos) : Option String :=
  none

/-- The method dispatch of Chronos.fit (lines 131-151): point-estimate
methods take the MLE/MAP branch; otherwise line 149 reads self.method,
an attribute that does not exist, so Python raises AttributeError before
the comparison with the string MCMC can select the MCMC stub. -/
def Chronos.fitDispatch (self : Chronos) : FitOutcome :=
  if self.method_ = "MLE" ∨ self.method_ = "MAP" then
    FitOutcome.pointEstimate self.method_
  else
    match self.methodAttr with
    | none => FitOutcome.attributeError ("method")
    | some m => if m = "MCMC" then FitOutcome.mcmcBranch else FitOutcome.fallThrough

/-- Calendar attributes of an epoch-nanosecond instant, as computed by the
pandas datetime machinery (an external collaborator): day of week, day of
month, day of year.  The future-frame properties hold for every calendar. -/
structure Calendar where
  dow : ℤ → ℕ
  dayOfMonth : ℤ → ℕ
  doy : ℤ → ℕ

/-- The timestamp at an instant, with its calendar attributes. -/
def Calendar.stamp (cal : Calendar) (nanos : ℤ) : Timestamp :=
  ⟨nanos, cal.dow nanos, cal.dayOfMonth nanos, cal.doy nanos⟩

/-- Nanoseconds per day. -/
def dayNanos : ℤ := 86400 * 1000000000

/-- pd.date_range(start, periods, freq="D") for the daily frequency used by
the claims: periods stamps beginning at start, advancing one day each.
The source stringifies the start timestamp and pandas parses it back,
which is the identity at nanosecond precision. -/
def date_range_D (cal : Calendar) (start : Timestamp) (periods : ℕ) : List Timestamp :=
  (List.range periods).map (fun (i : ℕ) => cal.stamp (start.epochNanos + (i : ℤ) * dayNanos))

/-- series.max() on a datetime column: the timestamp with the largest
epoch instant; non-datetime cells are skipped.  On the empty column pandas
returns NaT; the claims only apply this to non-empty history. -/
def maxTs {α : Type} : List (Val α) → Timestamp
  | [] => ⟨0, 0, 0, 0⟩
  | v :: rest =>
      rest.foldl
        (fun acc w =>
          match w with
          | .ts t => if acc.epochNanos < t.epochNanos then t else acc
          | _ => acc)
        (match v with
         | .ts t => t
         | _ => ⟨0, 0, 0, 0⟩)

/-- pd.concat([a, b], axis=0) for two frames sharing the same column names
(the only shape make_future_dataframe builds): each column of the first
frame is extended with the same-named column of the second. -/
def concatFrames {α : Type} (a b : DataFrame α) : DataFrame α :=
  a.map (fun c => (c.1, c.2 ++ getColD b c.1))

/-- Chronos.make_future_dataframe (lines 306-326): find the maximum
observed date, generate period+1 daily stamps starting there and drop the
first (the anchor itself), pair them with NaN targets, and concatenate the
history with the new rows.  The include_history parameter is accepted but
never read by the body, exactly as in the source. -/
def Chronos.make_future_dataframe {α : Type} (self : Chronos) (cal : Calendar)
    (history : DataFrame α) (period : ℕ) (include_history : Bool) : DataFrame α :=
  let max_date_observed := maxTs (getColD history self.time_col_)
  let date_range := (date_range_D cal max_date_observed (period + 1)).drop 1
  let future_df : DataFrame α :=
    [(self.time_col_, date_range.map Val.ts),
     (self.target_col_, List.replicate date_range.length Val.nan)]
  let past_df := history
  concatFrames past_df future_df

/-- Python int() on a rational: truncation toward zero. -/
def pyInt (q : ℚ) : ℤ :=
  if 0 ≤ q then q.floor else -((-q).floor)

/-- torch.Tensor.kthvalue along one column of samples: the k-th smallest
element, 1-indexed; torch raises for k outside 1..n, modelled by none. -/
def kthvalue (xs : List ℚ) (k : ℤ) : Option ℚ :=
  if 1 ≤ k ∧ k ≤ (xs.length : ℤ) then
    (xs.insertionSort (fun a b => a ≤ b))[(k - 1).toNat]?
  else
    none

/-- Sequence a list of optional values: some of the list when every entry
is some, none as soon as one entry is none. -/
def seqOpt {γ : Type} : List (Option γ) → Option (List γ)
  | [] => some []
  | none :: _ => none
  | some a :: rest => (seqOpt rest).map (fun l => a :: l)

/-- Column j of the posterior-predictive sample matrix (outer index =
sample, inner index = prediction row), as sliced by the dim=0 reductions
of lines 292-294. -/
def sampleColumn (samples : List (List ℚ)) (j : ℕ) : List ℚ :=
  samples.map (fun s => s.getD j 0)

/-- torch.mean over dim 0: the arithmetic mean of one sample column. -/
def listMean (l : List ℚ) : ℚ :=
  l.sum / (l.length : ℚ)

/-- The prediction table of Chronos.predict (line 298), with its columns
in the returned order: timestamp, actual target, point forecast, upper
bound, lower bound. -/
structure Predictions (α : Type) where
  ds : List (Val α)
  y : List (Val α)
  yhat : List ℚ
  yhat_upper : List ℚ
  yhat_lower : List ℚ

/-- Lines 268-275 of Chronos.predict: transform the input frame, read the
target column out of it (a missing column raises KeyError), and drop it to
form the design matrix. -/
def Chronos.predictPrepare {α : Type} [LinearOrderedField α] (self : Chronos) (np : NumpyOps α)
    (data : DataFrame α) : Except String (List (Val α) × DataFrame α) :=
  let internal_data := self.transform_data_ np data
  match getCol internal_data self.target_col_ with
  | none => Except.error ("KeyError: " ++ self.target_col_)
  | some yv => Except.ok (yv, dropCols internal_data [self.target_col_])

/-- Chronos.predict (lines 267-300).  After preparation, the point-estimate
branch reduces the posterior-predictive sample matrix (passed here as data,
since the sampling itself is randomness supplied by the pyro runtime):
per-row sample mean as yhat, and the order statistics at ranks
int(n*(1-ci)/2) and int(n*(1-(1-ci)/2)) as the interval; any other method
raises NotImplementedError. -/
def Chronos.predict {α : Type} [LinearOrderedField α] (self : Chronos) (np : NumpyOps α)
    (data : DataFrame α) (samples : List (List ℚ)) (ci_interval : ℚ) :
    Except String (Predictions α) :=
  match self.predictPrepare np data with
  | Except.error e => Except.error e
  | Except.ok (yv, _X) =>
    if self.method_ = "MAP" ∨ self.method_ = "MLE" then
      let space_on_each_side := (1 - ci_interval) / 2
      let lower_ntile := pyInt ((samples.length : ℚ) * space_on_each_side)
      let upper_ntile := pyInt ((samples.length : ℚ) * (1 - space_on_each_side))
      let nrows := (samples.headD []).length
      let yhat := (List.range nrows).map (fun j => listMean (sampleColumn samples j))
      match seqOpt ((List.range nrows).map (fun j => kthvalue (sampleColumn samples j) lower_ntile)),
            seqOpt ((List.range nrows).map (fun j => kthvalue (sampleColumn samples j) upper_ntile)) with
      | some lower, some upper =>
          Except.ok
            { ds := getColD data self.time_col_, y := yv,
              yhat := yhat, yhat_upper := upper, yhat_lower := lower }
      | _, _ => Except.error ("kthvalue: k not in range")
    else
      Except.error ("Did not implement .predict for " ++ self.method_)

/-- The call-level embedding of self.predict(data, ...): the transform call
on line 268 can raise (Chronos.transformError) before the target-column
lookup of line 272 is reached; on the non-raising range of the transform
this is the predict pipeline above. -/
def Chronos.predict_run {α : Type} [LinearOrderedField α] (self : Chronos) (np : NumpyOps α)
    (data : DataFrame α) (samples : List (List ℚ)) (ci_interval : ℚ) :
    Except String (Predictions α) :=
  match self.transformError data with
  | some e => Except.error e
  | none => self.predict np data samples ci_interval

/-- Projection of a predict result onto its rational columns
(yhat, yhat_lower, yhat_upper), for concrete evaluation. -/
def predictNumbers {α : Type} (e : Except String (Predictions α)) :
    Option (List ℚ × List ℚ × List ℚ) :=
  match e with
  | Except.ok r => some (r.yhat, r.yhat_lower, r.yhat_upper)
  | Except.error _ => none

/-- Substring containment, needle in hay, as used by the coefficient
filters of the seasonality getters. -/
def strContains (hay needle : String) : Bool :=
  decide (needle.toList <:+: hay.toList)

/-- numpy reshape(-1, 2) of a flat coefficient list into (sin, cos) pairs.
numpy raises on an odd length; the source only reaches this with an even
number of matching coefficients, and an odd leftover is dropped here. -/
def chunkPairs {α : Type} : List α → List (α × α)
  | a :: b :: rest => (a, b) :: chunkPairs rest
  | _ => []

/-- The coefficients the decomposition selects for one frequency tag:
enumerate the stored parameter vector against the design-matrix column
names, keep those whose name contains the tag, preserving order, and
reshape into (sin, cos) pairs. -/
def seasonParams {α : Type} (params : List α) (xnames : List String) (tag : String) :
    List (α × α) :=
  chunkPairs (((params.zip xnames).filter (fun pr => strContains pr.2 tag)).map Prod.fst)

/-- The accumulation loop shared by the three get_*_seasonality_point
functions (for i, pair in enumerate(params): seasonality += sin_coef *
np.sin(cycle_pos) + cosin_coef * np.cos(cycle_pos), with cycle_order =
i + 1 and cycle_pos = cycle_order * 2 * pi * days / period). -/
def seasonLoop {α : Type} [LinearOrderedField α] (np : NumpyOps α) (period : α)
    (days : List α) : ℕ → List (α × α) → List α → List α
  | _, [], acc => acc
  | i, pair :: rest, acc =>
      seasonLoop np period days (i + 1) rest
        (List.zipWith
          (fun a dv =>
            a + (pair.1 * np.sin (((i : α) + 1) * 2 * np.pi * dv / period)
              + pair.2 * np.cos (((i : α) + 1) * 2 * np.pi * dv / period)))
          acc days)

/-- Chronos.get_weekly_seasonality_point (lines 340-367): decompose the
weekly coefficients over the weekdays 0..6 (0 = Monday) with period 7,
returning (Weekday, Value) rows. -/
def get_weekly_seasonality_point {α : Type} [LinearOrderedField α] (np : NumpyOps α)
    (params : List α) (xnames : List String) : List (ℕ × α) :=
  let weekly_params := seasonParams params xnames ("weekly")
  let weekdays := List.range 7
  let seasonality :=
    seasonLoop np 7 (weekdays.map (fun (d : ℕ) => (d : α))) 0 weekly_params
      (weekdays.map (fun (_ : ℕ) => (0 : α)))
  weekdays.zip seasonality

/-- Chronos.get_monthly_seasonality_point (lines 407-432): decompose the
monthly coefficients over the month-day indices 0..30 with period 30,
reporting the day 1-based in the (Monthday, Value) rows. -/
def get_monthly_seasonality_point {α : Type} [LinearOrderedField α] (np : NumpyOps α)
    (params : List α) (xnames : List String) : List (ℕ × α) :=
  let monthly_params := seasonParams params xnames ("monthly")
  let monthdays := List.range 31
  let seasonality :=
    seasonLoop np 30 (monthdays.map (fun (d : ℕ) => (d : α))) 0 monthly_params
      (monthdays.map (fun (_ : ℕ) => (0 : α)))
  (monthdays.map (fun d => d + 1)).zip seasonality

/-- Chronos.get_yearly_seasonality_point (lines 470-495): decompose the
yearly coefficients over the year-day indices 0..365 with period 366,
reporting the day 1-based in the (Yearday, Value) rows. -/
def get_yearly_seasonality_point {α : Type} [LinearOrderedField α] (np : NumpyOps α)
    (params : List α) (xnames : List String) : List (ℕ × α) :=
  let yearly_params := seasonParams params xnames ("yearly")
  let yeardays := List.range 366
  let seasonality :=
    seasonLoop np 366 (yeardays.map (fun (d : ℕ) => (d : α))) 0 yearly_params
      (yeardays.map (fun (_ : ℕ) => (0 : α)))
  (yeardays.map (fun d => d + 1)).zip seasonality

/-- Chronos.get_weekly_seasonality (lines 332-338): dispatch on the method,
reading the stored coefficient vector from the process-wide pyro parameter
store (modelled as a name-indexed map passed in), or raise
NotImplementedError outside MAP/MLE. -/
def Chronos.get_weekly_seasonality {α : Type} [LinearOrderedField α] (self : Chronos)
    (np : NumpyOps α) (store : String → List α) (xnames : List String) :
    Except String (List (ℕ × α)) :=
  if self.method_ = "MAP" then
    Except.ok (get_weekly_seasonality_point np (store ("AutoDelta.betas")) xnames)
  else if self.method_ = "MLE" then
    Except.ok (get_weekly_seasonality_point np (store ("betas")) xnames)
  else
    Except.error ("Did not implement weekly seasonality for non MAP non MLE")

/-- Chronos.get_monthly_seasonality (lines 399-405). -/
def Chronos.get_monthly_seasonality {α : Type} [LinearOrderedField α] (self : Chronos)
    (np : NumpyOps α) (store : String → List α) (xnames : List String) :
    Except String (List (ℕ × α)) :=
  if self.method_ = "MAP" then
    Except.ok (get_monthly_seasonality_point np (store ("AutoDelta.betas")) xnames)
  else if self.method_ = "MLE" then
    Except.ok (get_monthly_seasonality_point np (store ("betas")) xnames)
  else
    Except.error ("Did not implement monthly seasonality for non MAP non MLE")

/-- Chronos.get_yearly_seasonality (lines 462-468). -/
def Chronos.get_yearly_seasonality {α : Type} [LinearOrderedField α] (self : Chronos)
    (np : NumpyOps α) (store : String → List α) (xnames : List String) :
    Except String (List (ℕ × α)) :=
  if self.method_ = "MAP" then
    Except.ok (get_yearly_seasonality_point np (store ("AutoDelta.betas")) xnames)
  else if self.method_ = "MLE" then
    Except.ok (get_yearly_seasonality_point np (store ("betas")) xnames)
  else
    Except.error ("Did not implement yearly seasonality for non MAP non MLE")

/-- The closed-form value the specification ascribes to the seasonal curve
at day index d: the sum over the harmonic pairs of sin_coef * sin(order *
2 * pi * d / period) + cos_coef * cos(order * 2 * pi * d / period), where
pair i (0-based) carries harmonic order i + 1. -/
def seasonSum {α : Type} [LinearOrderedField α] (np : NumpyOps α) (period : α)
    (pairs : List (α × α)) (d : α) : α :=
  ∑ i ∈ Finset.range pairs.length,
    ((pairs.getD i (0, 0)).1 * np.sin (((i : α) + 1) * 2 * np.pi * d / period)
      + (pairs.getD i (0, 0)).2 * np.cos (((i : α) + 1) * 2 * np.pi * d / period))

/-- The explicit normal form of transform_data_ on a two-column series
under a sensible configuration: constant column, converted time column,
untouched target column, then the yearly, monthly and weekly harmonic
blocks. -/
def transformNF {α : Type} [LinearOrderedField α] (self : Chronos) (np : NumpyOps α)
    (ts : List Timestamp) (ys : List (Val α)) : DataFrame α :=
  ("CONST", List.replicate ts.length (Val.real 1)) ::
    (self.time_col_, (ts.map Val.ts).map (fun v => Val.real v.epochFloatDays)) ::
    (self.target_col_, ys) ::
    (harmonicColumns np ("yearly") self.year_seasonality_order_
        ((ts.map Val.ts).map (fun v => v.dayofyearR - 1)) 366
      ++ harmonicColumns np ("monthly") self.month_seasonality_order_
        ((ts.map Val.ts).map (fun v => v.dayR - 1)) 31
      ++ harmonicColumns np ("weekly") self.weekly_seasonality_order_
        ((ts.map Val.ts).map (fun v => v.dayofweekR)) 7)

/-- The new timestamps of make_future_dataframe: the daily range anchored
at the maximum observed date, with the anchor itself dropped. -/
def futureStamps (cal : Calendar) (start : Timestamp) (period : ℕ) : List Timestamp :=
  (date_range_D cal start (period + 1)).drop 1

/-- Conclusion of the feature-count claim for the harmonic feature builder:
on a series of n rows the output frame has the 2 series columns plus
1 + 2(Y+M+W) builder feature columns, every harmonic sine/cosine column is
present with all its n values real and inside [-1, 1], and every output
column has exactly n rows. -/
def FeatureCountProp (self : Chronos) (ts : List Timestamp) (ys : List (Val ℝ)) : Prop :=
  let out := self.transform_data_ (⟨Real.sin, Real.cos, Real.pi⟩ : NumpyOps ℝ)
    (mkSeries self.time_col_ self.target_col_ ts ys)
  let total := self.year_seasonality_order_ + self.month_seasonality_order_
    + self.weekly_seasonality_order_
  out.length = 2 + (1 + 2 * total)
    ∧ (featureColumns self out).length = 1 + 2 * total
    ∧ (∀ nm ∈ harmonicNames ("yearly") self.year_seasonality_order_
          ++ harmonicNames ("monthly") self.month_seasonality_order_
          ++ harmonicNames ("weekly") self.weekly_seasonality_order_,
        ∃ vs, getCol out nm = some vs ∧ vs.length = ts.length
          ∧ ∀ v ∈ vs, ∃ x, v = Val.real x ∧ -1 ≤ x ∧ x ≤ 1)
    ∧ (∀ c ∈ out, c.2.length = ts.length)

/-- Conclusion of the column-order claim: the output columns are, in
order, the constant column, the two series columns, then all yearly
sin/cos pairs in ascending harmonic order, then all monthly pairs, then
all weekly pairs; in particular the constant-then-yearly-then-monthly-
then-weekly feature sequence is a sublist of the column order, and the
construction is deterministic on equal inputs. -/
def ColumnOrderProp (self : Chronos) (ts : List Timestamp) (ys : List (Val ℝ)) : Prop :=
  let out := self.transform_data_ (⟨Real.sin, Real.cos, Real.pi⟩ : NumpyOps ℝ)
    (mkSeries self.time_col_ self.target_col_ ts ys)
  let featNames := harmonicNames ("yearly") self.year_seasonality_order_
    ++ harmonicNames ("monthly") self.month_seasonality_order_
    ++ harmonicNames ("weekly") self.weekly_seasonality_order_
  out.map Prod.fst = "CONST" :: self.time_col_ :: self.target_col_ :: featNames
    ∧ List.Sublist ("CONST" :: featNames) (out.map Prod.fst)
    ∧ (∀ ts2 ys2, ts2 = ts → ys2 = ys →
        self.transform_data_ (⟨Real.sin, Real.cos, Real.pi⟩ : NumpyOps ℝ)
          (mkSeries self.time_col_ self.target_col_ ts2 ys2) = out)

/-- Conclusion of the amended interval claim: predict succeeds and the
returned lower bounds are pointwise at most the returned upper bounds. -/
def IntervalProp (self : Chronos) (data : DataFrame ℝ) (samples : List (List ℚ)) (ci : ℚ) :
    Prop :=
  ∃ r, self.predict (⟨Real.sin, Real.cos, Real.pi⟩ : NumpyOps ℝ) data samples ci = Except.ok r
    ∧ List.Forall₂ (fun a b => a ≤ b) r.yhat_lower r.yhat_upper

/-- Conclusion of the unsupported-method claim: predict and the three
seasonality getters all fail with their explicit not-implemented errors. -/
def UnsupportedErrorsProp (self : Chronos) (store : String → List ℝ) (xnames : List String)
    (ts : List Timestamp) (ys : List (Val ℝ)) (samples : List (List ℚ)) (ci : ℚ) : Prop :=
  self.predict (⟨Real.sin, Real.cos, Real.pi⟩ : NumpyOps ℝ)
      (mkSeries self.time_col_ self.target_col_ ts ys) samples ci
      = Except.error ("Did not implement .predict for " ++ self.method_)
    ∧ self.get_weekly_seasonality (⟨Real.sin, Real.cos, Real.pi⟩ : NumpyOps ℝ) store xnames
      = Except.error ("Did not implement weekly seasonality for non MAP non MLE")
    ∧ self.get_monthly_seasonality (⟨Real.sin, Real.cos, Real.pi⟩ : NumpyOps ℝ) store xnames
      = Except.error ("Did not implement monthly seasonality for non MAP non MLE")
    ∧ self.get_yearly_seasonality (⟨Real.sin, Real.cos, Real.pi⟩ : NumpyOps ℝ) store xnames
      = Except.error ("Did not implement yearly seasonality for non MAP non MLE")

/-- Conclusion of the future-frame claim for periods = 30, daily frequency,
include_history = true: every output column has n + 30 rows, there are
exactly 30 new stamps, the output time column is the history stamps
followed by the new stamps, the new stamps are strictly increasing, each
lies strictly after the maximum observed stamp, and that maximum bounds
every history stamp. -/
def FutureFrameProp (self : Chronos) (cal : Calendar) (ts : List Timestamp)
    (ys : List (Val ℝ)) : Prop :=
  let out := self.make_future_dataframe cal
    (mkSeries self.time_col_ self.target_col_ ts ys) 30 true
  let maxT := maxTs (α := ℝ) (ts.map Val.ts)
  let newTs := futureStamps cal maxT 30
  (∀ c ∈ out, c.2.length = ts.length + 30)
    ∧ newTs.length = 30
    ∧ getCol out self.time_col_ = some (ts.map Val.ts ++ newTs.map Val.ts)
    ∧ List.Chain' (fun a b => a.epochNanos < b.epochNanos) newTs
    ∧ (∀ t ∈ newTs, maxT.epochNanos < t.epochNanos)
    ∧ (∀ t ∈ ts, t.epochNanos ≤ maxT.epochNanos)

/-- Conclusion of the amended target-column claim: on a frame that the
harmonic transform processes without raising but which lacks the target
column, predict fails with the key lookup error for the target column
before any prediction, while a series whose target column is entirely NaN
passes the same extraction. -/
def MissingTargetProp (self : Chronos) (df : DataFrame ℝ) (ts : List Timestamp)
    (samples : List (List ℚ)) (ci : ℚ) : Prop :=
  self.predict_run (⟨Real.sin, Real.cos, Real.pi⟩ : NumpyOps ℝ) df samples ci
      = Except.error ("KeyError: " ++ self.target_col_)
    ∧ ∃ X, self.predictPrepare (⟨Real.sin, Real.cos, Real.pi⟩ : NumpyOps ℝ)
        (mkSeries self.time_col_ self.target_col_ ts (List.replicate ts.length Val.nan))
        = Except.ok (List.replicate ts.length Val.nan, X)

/-- A concrete timestamp for the concrete runs (the epoch; a Thursday). -/
def t0 : Timestamp := ⟨0, 3, 1, 1⟩

/-- A concrete point-estimate configuration with harmonic orders 1, 1, 1
and the default column names. -/
def chronosMLE : Chronos := ⟨"MLE", "ds", "y", 1, 1, 1, 1 / 100, 1000⟩

/-- A concrete configuration whose method is the unimplemented MCMC. -/
def chronosMCMC : Chronos := ⟨"MCMC", "ds", "y", 1, 1, 1, 1 / 100, 1000⟩

/-- A concrete calendar for the concrete future-frame run. -/
def cal0 : Calendar := ⟨fun _ => 0, fun _ => 1, fun _ => 1⟩

/-- A one-row history with an unknown target value. -/
def hist0 : DataFrame ℝ := mkSeries ("ds") ("y") [t0] [Val.nan]

/-- Five posterior-predictive samples of a single prediction row whose
mean, 20, lies strictly above the order statistics picked as interval
bounds at ci = 1/5 (ranks 2 and 3, both value 0). -/
def cexSamples : List (List ℚ) := [[0], [0], [0], [0], [100]]

/-- Four well-spread posterior-predictive samples of a single prediction
row, giving valid ranks 1 and 3 at ci = 1/2. -/
def quadSamples : List (List ℚ) := [[1], [2], [3], [4]]

theorem setCol_of_fresh {α : Type} {df : DataFrame α} {name : String} {vals : List (Val α)}
    (h : ∀ c ∈ df, c.1 ≠ name) : setCol df name vals = df ++ [(name, vals)] := by
  have ha : df.any (fun c => c.1 == name) = false := by
    simp only [List.any_eq_false, beq_iff_eq]
    exact h
  simp [setCol, ha]

theorem mem_names_setCol {α : Type} {df : DataFrame α} {name nm : String} {vals : List (Val α)}
    (h : nm ∈ (setCol df name vals).map Prod.fst) : nm ∈ df.map Prod.fst ∨ nm = name := by
  unfold setCol at h
  by_cases hc : df.any (fun c => c.1 == name)
  · rw [if_pos hc] at h
    rw [List.map_map] at h
    obtain ⟨c, hcmem, hceq⟩ := List.mem_map.mp h
    by_cases hcn : (c.1 == name) = true
    · right
      simp only [Function.comp, hcn, if_pos] at hceq
      exact hceq.symm
    · left
      simp only [Function.comp, hcn] at hceq
      simp only [Bool.false_eq_true, if_false] at hceq
      exact hceq ▸ List.mem_map_of_mem Prod.fst hcmem
  · rw [if_neg hc] at h
    rw [List.map_append] at h
    rcases List.mem_append.mp h with h1 | h2
    · exact Or.inl h1
    · right
      simpa using h2

theorem harmonicNames_succ (tag : String) (n : ℕ) :
    harmonicNames tag (n + 1)
      = harmonicNames tag n ++ [sinName tag (n + 1), cosName tag (n + 1)] := by
  unfold harmonicNames
  rw [List.range_succ, List.flatMap_append]
  simp

theorem harmonicColumns_succ {α : Type} [LinearOrderedField α] (np : NumpyOps α) (tag : String)
    (n : ℕ) (dayIdx : List α) (period : α) :
    harmonicColumns np tag (n + 1) dayIdx period
      = harmonicColumns np tag n dayIdx period
        ++ [(sinName tag (n + 1),
              (dayIdx.map (fun dv => ((n + 1 : ℕ) : α) * 2 * np.pi * dv / period)).map
                (fun p => Val.real (np.sin p))),
            (cosName tag (n + 1),
              (dayIdx.map (fun dv => ((n + 1 : ℕ) : α) * 2 * np.pi * dv / period)).map
                (fun p => Val.real (np.cos p)))] := by
  unfold harmonicColumns
  rw [List.range_succ, List.flatMap_append]
  simp

theorem map_fst_harmonicColumns {α : Type} [LinearOrderedField α] (np : NumpyOps α)
    (tag : String) (order : ℕ) (dayIdx : List α) (period : α) :
    (harmonicColumns np tag order dayIdx period).map Prod.fst = harmonicNames tag order := by
  unfold harmonicColumns harmonicNames
  rw [List.map_flatMap]
  rfl

theorem harmonicFold_succ {α : Type} [LinearOrderedField α] (np : NumpyOps α) (df : DataFrame α)
    (tag : String) (n : ℕ) (dayIdx : List α) (period : α) :
    harmonicFold np df tag (n + 1) dayIdx period
      = harmonicStep np (harmonicFold np df tag n dayIdx period) tag (n + 1) dayIdx period := by
  unfold harmonicFold
  rw [List.range_succ, List.foldl_append]
  rfl

theorem harmonicFold_eq {α : Type} [LinearOrderedField α] (np : NumpyOps α) (df : DataFrame α)
    (tag : String) (order : ℕ) (dayIdx : List α) (period : α)
    (hfresh : ∀ nm ∈ harmonicNames tag order, ∀ c ∈ df, c.1 ≠ nm)
    (hnodup : (harmonicNames tag order).Nodup) :
    harmonicFold np df tag order dayIdx period
      = df ++ harmonicColumns np tag order dayIdx period := by
  induction order with
  | zero => simp [harmonicFold, harmonicColumns]
  | succ n ih =>
      have hsplit := harmonicNames_succ tag n
      have hnames := hnodup
      rw [hsplit, List.nodup_append] at hnames
      obtain ⟨hnd1, hnd2, hdisj⟩ := hnames
      have hsin_new : sinName tag (n + 1) ∉ harmonicNames tag n := by
        intro hmem
        exact hdisj hmem (by simp)
      have hcos_new : cosName tag (n + 1) ∉ harmonicNames tag n := by
        intro hmem
        exact hdisj hmem (by simp)
      have hsin_ne_cos : sinName tag (n + 1) ≠ cosName tag (n + 1) := by
        have := hnd2
        simp [List.nodup_cons] at this
        exact this
      have hsin_mem : sinName tag (n + 1) ∈ harmonicNames tag (n + 1) := by
        rw [hsplit]; simp
      have hcos_mem : cosName tag (n + 1) ∈ harmonicNames tag (n + 1) := by
        rw [hsplit]; simp
      rw [harmonicFold_succ]
      rw [ih (fun nm hnm c hc => hfresh nm (hsplit ▸ List.mem_append_left _ hnm) c hc) hnd1]
      simp only [harmonicStep]
      have hfs : ∀ c ∈ df ++ harmonicColumns np tag n dayIdx period,
          c.1 ≠ sinName tag (n + 1) := by
        intro c hc
        rcases List.mem_append.mp hc with hdf | hharm
        · exact hfresh _ hsin_mem c hdf
        · intro hceq
          apply hsin_new
          rw [← map_fst_harmonicColumns np tag n dayIdx period]
          exact hceq ▸ List.mem_map_of_mem Prod.fst hharm
      rw [setCol_of_fresh hfs]
      have hfc : ∀ (vals : List (Val α)),
          ∀ c ∈ (df ++ harmonicColumns np tag n dayIdx period)
            ++ [(sinName tag (n + 1), vals)], c.1 ≠ cosName tag (n + 1) := by
        intro vals c hc
        rcases List.mem_append.mp hc with hc1 | hc2
        · rcases List.mem_append.mp hc1 with hdf | hharm
          · exact hfresh _ hcos_mem c hdf
          · intro hceq
            apply hcos_new
            rw [← map_fst_harmonicColumns np tag n dayIdx period]
            exact hceq ▸ List.mem_map_of_mem Prod.fst hharm
        · rw [List.mem_singleton] at hc2
          rw [hc2]
          exact hsin_ne_cos
      rw [setCol_of_fresh (hfc _)]
      rw [harmonicColumns_succ]
      simp [List.append_assoc]

theorem getColD_mkSeries_time {α : Type} (tc yc : String) (ts : List Timestamp)
    (ys : List (Val α)) : getColD (mkSeries tc yc ts ys) tc = ts.map Val.ts := by
  simp [mkSeries, getColD, getCol, List.find?_cons_of_pos]

theorem setCol_head {α : Type} (tc : String) (a v : List (Val α)) (rest : DataFrame α)
    (hrest : ∀ c ∈ rest, c.1 ≠ tc) :
    setCol ((tc, a) :: rest) tc v = (tc, v) :: rest := by
  unfold setCol
  have hany : (((tc, a) :: rest).any (fun c => c.1 == tc)) = true := by simp
  rw [if_pos hany]
  simp only [List.map_cons, beq_self_eq_true, if_pos]
  congr 1
  have : ∀ c ∈ rest, (if c.1 == tc then (tc, v) else c) = id c := by
    intro c hc
    have : (c.1 == tc) = false := by
      simp only [beq_eq_false_iff_ne, ne_eq]
      exact hrest c hc
    simp [this]
  rw [List.map_congr_left this, List.map_id]

theorem filter_keep_harmonic {α : Type} [LinearOrderedField α] (np : NumpyOps α) (tag : String)
    (order : ℕ) (dayIdx : List α) (period : α) (names : List String)
    (h : ∀ nm ∈ harmonicNames tag order, nm ∉ names) :
    (harmonicColumns np tag order dayIdx period).filter (fun c => !(names.contains c.1))
      = harmonicColumns np tag order dayIdx period := by
  apply List.filter_eq_self.mpr
  intro c hc
  have hmem : c.1 ∈ harmonicNames tag order := by
    rw [← map_fst_harmonicColumns np tag order dayIdx period]
    exact List.mem_map_of_mem Prod.fst hc
  have hnm := h c.1 hmem
  simp only [Bool.not_eq_eq_eq_not, Bool.not_false]
  simpa using hnm

theorem nRows_cons {α : Type} (c : String × List (Val α)) (rest : DataFrame α) :
    nRows (c :: rest) = c.2.length := rfl

theorem transform_normal {α : Type} [LinearOrderedField α] (self : Chronos) (np : NumpyOps α)
    (ts : List Timestamp) (ys : List (Val α)) (hs : self.Sensible) :
    self.transform_data_ np (mkSeries self.time_col_ self.target_col_ ts ys)
      = transformNF self np ts ys := by
  obtain ⟨htc, hyc, htcyc, hnodup⟩ := hs
  have htcne : ∀ nm ∈ self.generatedNames, self.time_col_ ≠ nm :=
    fun nm h he => htc (he ▸ h)
  have hycne : ∀ nm ∈ self.generatedNames, self.target_col_ ≠ nm :=
    fun nm h he => hyc (he ▸ h)
  have hWg : ("weekday" : String) ∈ self.generatedNames := by
    simp [Chronos.generatedNames]
  have hMg : ("monthday" : String) ∈ self.generatedNames := by
    simp [Chronos.generatedNames]
  have hYg : ("yearday" : String) ∈ self.generatedNames := by
    simp [Chronos.generatedNames]
  have hyearg : ∀ nm ∈ harmonicNames ("yearly") self.year_seasonality_order_,
      nm ∈ self.generatedNames := by
    intro nm h
    simp [Chronos.generatedNames]
    tauto
  have hmonthg : ∀ nm ∈ harmonicNames ("monthly") self.month_seasonality_order_,
      nm ∈ self.generatedNames := by
    intro nm h
    simp [Chronos.generatedNames]
    tauto
  have hweekg : ∀ nm ∈ harmonicNames ("weekly") self.weekly_seasonality_order_,
      nm ∈ self.generatedNames := by
    intro nm h
    simp [Chronos.generatedNames]
    tauto
  rw [Chronos.generatedNames, List.append_assoc, List.append_assoc, List.nodup_append] at hnodup
  obtain ⟨hndBase, hndRest, hdisjBase⟩ := hnodup
  rw [List.nodup_append] at hndRest
  obtain ⟨hndY, hndRest2, hdisjY⟩ := hndRest
  rw [List.nodup_append] at hndRest2
  obtain ⟨hndM, hndW, hdisjM⟩ := hndRest2
  have hharmNotHelper : ∀ nm, (nm ∈ harmonicNames ("yearly") self.year_seasonality_order_
        ∨ nm ∈ harmonicNames ("monthly") self.month_seasonality_order_
        ∨ nm ∈ harmonicNames ("weekly") self.weekly_seasonality_order_) →
      nm ∉ (["weekday", "monthday", "yearday"] : List String) ∧ nm ≠ "CONST" := by
    intro nm hnm
    have hrest : nm ∈ harmonicNames ("yearly") self.year_seasonality_order_
        ++ (harmonicNames ("monthly") self.month_seasonality_order_
          ++ harmonicNames ("weekly") self.weekly_seasonality_order_) := by
      rcases hnm with h | h | h
      · exact List.mem_append_left _ h
      · exact List.mem_append_right _ (List.mem_append_left _ h)
      · exact List.mem_append_right _ (List.mem_append_right _ h)
    have hnotbase : nm ∉ (["CONST", "weekday", "monthday", "yearday"] : List String) := by
      intro hbase
      exact hdisjBase hbase hrest
    constructor
    · intro hin
      apply hnotbase
      simp only [List.mem_cons, List.mem_singleton] at hin ⊢
      tauto
    · intro he
      apply hnotbase
      simp [he]
  simp only [Chronos.transform_data_, transformNF]
  rw [getColD_mkSeries_time]
  simp only [mkSeries]
  have hW1 : ∀ c ∈ ([(self.time_col_, ts.map Val.ts), (self.target_col_, ys)] : DataFrame α),
      c.1 ≠ "weekday" := by
    intro c hc
    simp only [List.mem_cons, List.mem_singleton] at hc
    rcases hc with rfl | rfl | h
    · exact htcne _ hWg
    · exact hycne _ hWg
    · cases h
  rw [setCol_of_fresh hW1]
  simp only [List.cons_append, List.nil_append]
  have hM1 : ∀ (wv : List (Val α)), ∀ c ∈ ((self.time_col_, ts.map Val.ts)
      :: (self.target_col_, ys) :: [(("weekday" : String), wv)] : DataFrame α),
      c.1 ≠ "monthday" := by
    intro wv c hc
    simp only [List.mem_cons, List.mem_singleton] at hc
    rcases hc with rfl | rfl | rfl | h
    · exact htcne _ hMg
    · exact hycne _ hMg
    · exact (by decide : ("weekday" : String) ≠ "monthday")
    · cases h
  rw [setCol_of_fresh (hM1 _)]
  simp only [List.cons_append, List.nil_append]
  have hY1 : ∀ (wv mv : List (Val α)), ∀ c ∈ ((self.time_col_, ts.map Val.ts)
      :: (self.target_col_, ys) :: (("weekday" : String), wv)
      :: [(("monthday" : String), mv)] : DataFrame α),
      c.1 ≠ "yearday" := by
    intro wv mv c hc
    simp only [List.mem_cons, List.mem_singleton] at hc
    rcases hc with rfl | rfl | rfl | rfl | h
    · exact htcne _ hYg
    · exact hycne _ hYg
    · exact (by decide : ("weekday" : String) ≠ "yearday")
    · exact (by decide : ("monthday" : String) ≠ "yearday")
    · cases h
  rw [setCol_of_fresh (hY1 _ _)]
  simp only [List.cons_append, List.nil_append]
  have hT1 : ∀ (wv mv yv : List (Val α)), ∀ c ∈ ((self.target_col_, ys)
      :: (("weekday" : String), wv) :: (("monthday" : String), mv)
      :: [(("yearday" : String), yv)] : DataFrame α),
      c.1 ≠ self.time_col_ := by
    intro wv mv yv c hc
    simp only [List.mem_cons, List.mem_singleton] at hc
    rcases hc with rfl | rfl | rfl | rfl | h
    · exact fun he => htcyc he.symm
    · exact fun he => (htcne _ hWg) he.symm
    · exact fun he => (htcne _ hMg) he.symm
    · exact fun he => (htcne _ hYg) he.symm
    · cases h
  rw [setCol_head _ _ _ _ (hT1 _ _ _)]
  have hFY : ∀ nm ∈ harmonicNames ("yearly") self.year_seasonality_order_,
      ∀ c ∈ ((self.time_col_, (ts.map Val.ts).map (fun v => Val.real v.epochFloatDays))
        :: (self.target_col_, ys)
        :: (("weekday" : String), ((ts.map Val.ts).map (fun v => v.dayofweekR)).map Val.real)
        :: (("monthday" : String), ((ts.map Val.ts).map (fun v => v.dayR - 1)).map Val.real)
        :: [(("yearday" : String), ((ts.map Val.ts).map (fun v => v.dayofyearR - 1)).map Val.real)]
          : DataFrame α),
      c.1 ≠ nm := by
    intro nm hnm c hc
    simp only [List.mem_cons, List.mem_singleton] at hc
    rcases hc with rfl | rfl | rfl | rfl | rfl | h
    · exact htcne _ (hyearg nm hnm)
    · exact hycne _ (hyearg nm hnm)
    · exact fun he => ((hharmNotHelper nm (Or.inl hnm)).1 (by simp [← he]))
    · exact fun he => ((hharmNotHelper nm (Or.inl hnm)).1 (by simp [← he]))
    · exact fun he => ((hharmNotHelper nm (Or.inl hnm)).1 (by simp [← he]))
    · cases h
  rw [harmonicFold_eq np _ _ _ _ _ hFY hndY]
  simp only [List.cons_append, List.nil_append]
  have hFM : ∀ nm ∈ harmonicNames ("monthly") self.month_seasonality_order_,
      ∀ c ∈ ((self.time_col_, (ts.map Val.ts).map (fun v => Val.real v.epochFloatDays))
        :: (self.target_col_, ys)
        :: (("weekday" : String), ((ts.map Val.ts).map (fun v => v.dayofweekR)).map Val.real)
        :: (("monthday" : String), ((ts.map Val.ts).map (fun v => v.dayR - 1)).map Val.real)
        :: (("yearday" : String), ((ts.map Val.ts).map (fun v => v.dayofyearR - 1)).map Val.real)
        :: harmonicColumns np ("yearly") self.year_seasonality_order_
            ((ts.map Val.ts).map (fun v => v.dayofyearR - 1)) 366),
      c.1 ≠ nm := by
    intro nm hnm c hc
    simp only [List.mem_cons] at hc
    rcases hc with rfl | rfl | rfl | rfl | rfl | h
    · exact htcne _ (hmonthg nm hnm)
    · exact hycne _ (hmonthg nm hnm)
    · exact fun he => ((hharmNotHelper nm (Or.inr (Or.inl hnm))).1 (by simp [← he]))
    · exact fun he => ((hharmNotHelper nm (Or.inr (Or.inl hnm))).1 (by simp [← he]))
    · exact fun he => ((hharmNotHelper nm (Or.inr (Or.inl hnm))).1 (by simp [← he]))
    · intro he
      have hy2 : nm ∈ harmonicNames ("yearly") self.year_seasonality_order_ := by
        rw [← map_fst_harmonicColumns np ("yearly") self.year_seasonality_order_
          ((ts.map Val.ts).map (fun v => v.dayofyearR - 1)) 366]
        exact he ▸ List.mem_map_of_mem Prod.fst h
      exact hdisjY hy2 (List.mem_append_left _ hnm)
  rw [harmonicFold_eq np _ _ _ _ _ hFM hndM]
  simp only [List.cons_append, List.nil_append]
  have hFW : ∀ nm ∈ harmonicNames ("weekly") self.weekly_seasonality_order_,
      ∀ c ∈ ((self.time_col_, (ts.map Val.ts).map (fun v => Val.real v.epochFloatDays))
        :: (self.target_col_, ys)
        :: (("weekday" : String), ((ts.map Val.ts).map (fun v => v.dayofweekR)).map Val.real)
        :: (("monthday" : String), ((ts.map Val.ts).map (fun v => v.dayR - 1)).map Val.real)
        :: (("yearday" : String), ((ts.map Val.ts).map (fun v => v.dayofyearR - 1)).map Val.real)
        :: (harmonicColumns np ("yearly") self.year_seasonality_order_
              ((ts.map Val.ts).map (fun v => v.dayofyearR - 1)) 366
            ++ harmonicColumns np ("monthly") self.month_seasonality_order_
              ((ts.map Val.ts).map (fun v => v.dayR - 1)) 31)),
      c.1 ≠ nm := by
    intro nm hnm c hc
    simp only [List.mem_cons] at hc
    rcases hc with rfl | rfl | rfl | rfl | rfl | h
    · exact htcne _ (hweekg nm hnm)
    · exact hycne _ (hweekg nm hnm)
    · exact fun he => ((hharmNotHelper nm (Or.inr (Or.inr hnm))).1 (by simp [← he]))
    · exact fun he => ((hharmNotHelper nm (Or.inr (Or.inr hnm))).1 (by simp [← he]))
    · exact fun he => ((hharmNotHelper nm (Or.inr (Or.inr hnm))).1 (by simp [← he]))
    · rcases List.mem_append.mp h with hy2 | hm2
      · intro he
        have hmem : nm ∈ harmonicNames ("yearly") self.year_seasonality_order_ := by
          rw [← map_fst_harmonicColumns np ("yearly") self.year_seasonality_order_
            ((ts.map Val.ts).map (fun v => v.dayofyearR - 1)) 366]
          exact he ▸ List.mem_map_of_mem Prod.fst hy2
        exact hdisjY hmem (List.mem_append_right _ hnm)
      · intro he
        have hmem : nm ∈ harmonicNames ("monthly") self.month_seasonality_order_ := by
          rw [← map_fst_harmonicColumns np ("monthly") self.month_seasonality_order_
            ((ts.map Val.ts).map (fun v => v.dayR - 1)) 31]
          exact he ▸ List.mem_map_of_mem Prod.fst hm2
        exact hdisjM hmem hnm
  rw [harmonicFold_eq np _ _ _ _ _ hFW hndW]
  simp only [List.cons_append, List.nil_append, List.append_assoc]
  rw [nRows_cons]
  simp only [dropCols, List.filter_cons, List.filter_append]
  have hkY : ∀ nm ∈ harmonicNames ("yearly") self.year_seasonality_order_,
      nm ∉ (["weekday", "monthday", "yearday"] : List String) :=
    fun nm h => (hharmNotHelper nm (Or.inl h)).1
  have hkM : ∀ nm ∈ harmonicNames ("monthly") self.month_seasonality_order_,
      nm ∉ (["weekday", "monthday", "yearday"] : List String) :=
    fun nm h => (hharmNotHelper nm (Or.inr (Or.inl h))).1
  have hkW : ∀ nm ∈ harmonicNames ("weekly") self.weekly_seasonality_order_,
      nm ∉ (["weekday", "monthday", "yearday"] : List String) :=
    fun nm h => (hharmNotHelper nm (Or.inr (Or.inr h))).1
  rw [filter_keep_harmonic np _ _ _ _ _ hkY, filter_keep_harmonic np _ _ _ _ _ hkM,
    filter_keep_harmonic np _ _ _ _ _ hkW]
  have hkeepC :
      (!((["weekday", "monthday", "yearday"] : List String).contains "CONST")) = true := by
    decide
  have hkeepT :
      (!((["weekday", "monthday", "yearday"] : List String).contains self.time_col_)) = true := by
    have h1 : self.time_col_ ∉ (["weekday", "monthday", "yearday"] : List String) := by
      simp only [List.mem_cons, List.mem_singleton]
      push_neg
      refine ⟨htcne _ hWg, htcne _ hMg, htcne _ hYg, ?_⟩
      simp
    simpa using h1
  have hkeepY :
      (!((["weekday", "monthday", "yearday"] : List String).contains self.target_col_)) = true := by
    have h1 : self.target_col_ ∉ (["weekday", "monthday", "yearday"] : List String) := by
      simp only [List.mem_cons, List.mem_singleton]
      push_neg
      refine ⟨hycne _ hWg, hycne _ hMg, hycne _ hYg, ?_⟩
      simp
    simpa using h1
  have hdropW :
      ((!((["weekday", "monthday", "yearday"] : List String).contains "weekday")) = true) → False := by
    decide
  have hdropM :
      ((!((["weekday", "monthday", "yearday"] : List String).contains "monthday")) = true) → False := by
    decide
  have hdropYd :
      ((!((["weekday", "monthday", "yearday"] : List String).contains "yearday")) = true) → False := by
    decide
  rw [if_pos hkeepC, if_pos hkeepT, if_pos hkeepY, if_neg hdropW, if_neg hdropM, if_neg hdropYd]
  simp only [List.length_map]

theorem mem_setCol {α : Type} {df : DataFrame α} {name : String} {vals : List (Val α)}
    {c : String × List (Val α)} (h : c ∈ setCol df name vals) : c ∈ df ∨ c.1 = name := by
  unfold setCol at h
  by_cases hc : df.any (fun x => x.1 == name)
  · rw [if_pos hc] at h
    obtain ⟨d, hd, hde⟩ := List.mem_map.mp h
    by_cases hdn : (d.1 == name) = true
    · right
      rw [← hde]
      simp [hdn]
    · left
      rw [← hde]
      simp only [hdn, Bool.false_eq_true, if_false]
      exact hd
  · rw [if_neg hc] at h
    rcases List.mem_append.mp h with h1 | h1
    · exact Or.inl h1
    · right
      rw [List.mem_singleton] at h1
      rw [h1]

theorem mem_harmonicFold {α : Type} [LinearOrderedField α] {np : NumpyOps α} {df : DataFrame α}
    {tag : String} {order : ℕ} {dayIdx : List α} {period : α} {c : String × List (Val α)}
    (h : c ∈ harmonicFold np df tag order dayIdx period) :
    c ∈ df ∨ c.1 ∈ harmonicNames tag order := by
  induction order with
  | zero =>
      left
      simpa [harmonicFold] using h
  | succ n ih =>
      rw [harmonicFold_succ] at h
      simp only [harmonicStep] at h
      rcases mem_setCol h with h1 | h1
      · rcases mem_setCol h1 with h2 | h2
        · rcases ih h2 with h3 | h3
          · exact Or.inl h3
          · right
            rw [harmonicNames_succ]
            exact List.mem_append_left _ h3
        · right
          rw [harmonicNames_succ, h2]
          simp
      · right
        rw [harmonicNames_succ, h1]
        simp

theorem mem_names_transform {α : Type} [LinearOrderedField α] (self : Chronos) (np : NumpyOps α)
    (df : DataFrame α) {nm : String}
    (h : nm ∈ (self.transform_data_ np df).map Prod.fst) :
    nm ∈ df.map Prod.fst ∨ nm ∈ self.generatedNames ∨ nm = self.time_col_ := by
  simp only [Chronos.transform_data_, dropCols] at h
  obtain ⟨c, hc, hcnm⟩ := List.mem_map.mp h
  have hc2 := List.mem_of_mem_filter hc
  rcases List.mem_cons.mp hc2 with hcC | hc3
  · right; left
    rw [← hcnm, hcC]
    simp [Chronos.generatedNames]
  · rcases mem_harmonicFold hc3 with hc4 | hweekN
    · rcases mem_harmonicFold hc4 with hc5 | hmonthN
      · rcases mem_harmonicFold hc5 with hc6 | hyearN
        · rcases mem_setCol hc6 with hc7 | htcN
          · rcases mem_setCol hc7 with hc8 | hydN
            · rcases mem_setCol hc8 with hc9 | hmdN
              · rcases mem_setCol hc9 with hc10 | hwdN
                · exact Or.inl (hcnm ▸ List.mem_map_of_mem Prod.fst hc10)
                · right; left
                  rw [← hcnm, hwdN]
                  simp [Chronos.generatedNames]
              · right; left
                rw [← hcnm, hmdN]
                simp [Chronos.generatedNames]
            · right; left
              rw [← hcnm, hydN]
              simp [Chronos.generatedNames]
          · right; right
            rw [← hcnm, htcN]
        · right; left
          rw [← hcnm]
          simp only [Chronos.generatedNames, List.mem_append]
          tauto
      · right; left
        rw [← hcnm]
        simp only [Chronos.generatedNames, List.mem_append]
        tauto
    · right; left
      rw [← hcnm]
      simp only [Chronos.generatedNames, List.mem_append]
      tauto

theorem maxStep_fold_init_le {α : Type} (l : List (Val α)) (init : Timestamp) :
    init.epochNanos ≤ (l.foldl
      (fun acc w => match w with
        | .ts t => if acc.epochNanos < t.epochNanos then t else acc
        | _ => acc) init).epochNanos := by
  induction l generalizing init with
  | nil => exact le_refl _
  | cons v rest ih =>
      rw [List.foldl_cons]
      refine le_trans ?_ (ih _)
      cases v with
      | ts t =>
          simp only
          by_cases h : init.epochNanos < t.epochNanos
          · rw [if_pos h]; exact le_of_lt h
          · rw [if_neg h]
      | real x => exact le_refl _
      | nan => exact le_refl _

theorem maxStep_fold_mem_le {α : Type} (l : List (Val α)) (init : Timestamp) (t : Timestamp)
    (h : Val.ts t ∈ l) :
    t.epochNanos ≤ (l.foldl
      (fun acc w => match w with
        | .ts t => if acc.epochNanos < t.epochNanos then t else acc
        | _ => acc) init).epochNanos := by
  induction l generalizing init with
  | nil => cases h
  | cons v rest ih =>
      rw [List.foldl_cons]
      rcases List.mem_cons.mp h with hv | hrest
      · rw [← hv]
        refine le_trans ?_ (maxStep_fold_init_le rest _)
        simp only
        by_cases hlt : init.epochNanos < t.epochNanos
        · rw [if_pos hlt]
        · rw [if_neg hlt]
          exact le_of_not_lt hlt
      · exact ih _ hrest

theorem le_maxTs {α : Type} {ts : List Timestamp} {t : Timestamp} (h : t ∈ ts) :
    t.epochNanos ≤ (maxTs (α := α) (ts.map Val.ts)).epochNanos := by
  cases ts with
  | nil => cases h
  | cons t1 rest =>
      rcases List.mem_cons.mp h with rfl | hrest
      · exact maxStep_fold_init_le _ _
      · exact maxStep_fold_mem_le _ _ _ (List.mem_map_of_mem Val.ts hrest)

theorem futureStamps_eq (cal : Calendar) (start : Timestamp) (period : ℕ) :
    futureStamps cal start period
      = (List.range period).map
          (fun (i : ℕ) => cal.stamp (start.epochNanos + ((i : ℤ) + 1) * dayNanos)) := by
  unfold futureStamps date_range_D
  rw [List.range_succ_eq_map]
  simp only [List.map_cons, List.map_map]
  rw [List.drop_one, List.tail_cons]
  apply List.map_congr_left
  intro i _
  simp only [Function.comp]
  congr 1

theorem kthvalue_pair (xs : List ℚ) {k1 k2 : ℤ} (h1 : 1 ≤ k1) (h12 : k1 ≤ k2)
    (h2 : k2 ≤ (xs.length : ℤ)) :
    ∃ a b, kthvalue xs k1 = some a ∧ kthvalue xs k2 = some b ∧ a ≤ b := by
  have hk1 : 1 ≤ k1 ∧ k1 ≤ (xs.length : ℤ) := ⟨h1, le_trans h12 h2⟩
  have hk2 : 1 ≤ k2 ∧ k2 ≤ (xs.length : ℤ) := ⟨le_trans h1 h12, h2⟩
  unfold kthvalue
  rw [if_pos hk1, if_pos hk2]
  have hlen : (xs.insertionSort (fun a b => a ≤ b)).length = xs.length :=
    (xs.perm_insertionSort (fun a b => a ≤ b)).length_eq
  have hi1 : (k1 - 1).toNat < (xs.insertionSort (fun a b => a ≤ b)).length := by
    rw [hlen]; omega
  have hi2 : (k2 - 1).toNat < (xs.insertionSort (fun a b => a ≤ b)).length := by
    rw [hlen]; omega
  rw [List.getElem?_eq_getElem hi1, List.getElem?_eq_getElem hi2]
  refine ⟨_, _, rfl, rfl, ?_⟩
  have hsorted : List.Sorted (fun a b => a ≤ b) (xs.insertionSort (fun a b => a ≤ b)) :=
    List.sorted_insertionSort (fun a b => a ≤ b) xs
  by_cases heq : (k1 - 1).toNat = (k2 - 1).toNat
  · simp [heq]
  · have hlt : (k1 - 1).toNat < (k2 - 1).toNat := by omega
    have hrel := List.Sorted.rel_get_of_lt hsorted
      (a := ⟨(k1 - 1).toNat, hi1⟩) (b := ⟨(k2 - 1).toNat, hi2⟩) (Fin.mk_lt_mk.mpr hlt)
    simpa [List.get_eq_getElem] using hrel

theorem seqOpt_pair (l : List ℕ) (f g : ℕ → Option ℚ)
    (h : ∀ j ∈ l, ∃ a b, f j = some a ∧ g j = some b ∧ a ≤ b) :
    ∃ v w, seqOpt (l.map f) = some v ∧ seqOpt (l.map g) = some w
      ∧ List.Forall₂ (fun a b => a ≤ b) v w := by
  induction l with
  | nil => exact ⟨[], [], rfl, rfl, List.Forall₂.nil⟩
  | cons j rest ih =>
      obtain ⟨a, b, hfa, hgb, hab⟩ := h j (List.mem_cons_self j rest)
      obtain ⟨v, w, hv, hw, hvw⟩ := ih (fun x hx => h x (List.mem_cons_of_mem _ hx))
      refine ⟨a :: v, b :: w, ?_, ?_, List.Forall₂.cons hab hvw⟩
      · simp [seqOpt, hfa, hv]
      · simp [seqOpt, hgb, hw]

theorem zipWith_left {β : Type} (acc days : List β) (h : acc.length = days.length) :
    List.zipWith (fun a _ => a) acc days = acc := by
  induction acc generalizing days with
  | nil => simp
  | cons a rest ih =>
      cases days with
      | nil => simp at h
      | cons d ds =>
          simp only [List.zipWith_cons_cons]
          rw [ih ds (by simpa using h)]

theorem zipWith_zipWith_same {β : Type} (f g : β → β → β) (acc days : List β) :
    List.zipWith g (List.zipWith f acc days) days
      = List.zipWith (fun a d => g (f a d) d) acc days := by
  induction acc generalizing days with
  | nil => simp
  | cons a rest ih =>
      cases days with
      | nil => simp
      | cons d ds => simp [ih ds]

theorem zipWith_same {β γ : Type} (f : β → β → γ) (l : List β) :
    List.zipWith f l l = l.map (fun a => f a a) := by
  induction l with
  | nil => rfl
  | cons a rest ih => simp [ih]

theorem zip_map_self {β γ : Type} (f : β → γ) (l : List β) :
    l.zip (l.map f) = l.map (fun a => (a, f a)) := by
  induction l with
  | nil => rfl
  | cons a rest ih => simp [ih]

theorem seasonLoop_eq {α : Type} [LinearOrderedField α] (np : NumpyOps α) (period : α)
    (days : List α) (pairs : List (α × α)) :
    ∀ (i : ℕ) (acc : List α), acc.length = days.length →
    seasonLoop np period days i pairs acc
      = List.zipWith
          (fun a dv => a + ∑ k ∈ Finset.range pairs.length,
            ((pairs.getD k (0, 0)).1 * np.sin ((((i + k : ℕ) : α) + 1) * 2 * np.pi * dv / period)
              + (pairs.getD k (0, 0)).2
                * np.cos ((((i + k : ℕ) : α) + 1) * 2 * np.pi * dv / period)))
          acc days := by
  induction pairs with
  | nil =>
      intro i acc hlen
      simp only [seasonLoop, List.length_nil, Finset.range_zero, Finset.sum_empty, add_zero]
      exact (zipWith_left acc days hlen).symm
  | cons p rest ih =>
      intro i acc hlen
      simp only [seasonLoop]
      rw [ih (i + 1)]
      · rw [zipWith_zipWith_same]
        have hnat : ∀ k : ℕ, i + 1 + k = i + (k + 1) := fun k => by omega
        simp only [hnat]
        congr 1
        funext a dv
        rw [List.length_cons, Finset.sum_range_succ']
        simp only [List.getD_cons_succ, List.getD_cons_zero, Nat.add_zero]
        ring
      · rw [List.length_zipWith, hlen]
        exact Nat.min_self _

theorem seasonality_values {α : Type} [LinearOrderedField α] (np : NumpyOps α) (period : α)
    (n : ℕ) (pairs : List (α × α)) :
    seasonLoop np period ((List.range n).map (fun (d : ℕ) => (d : α))) 0 pairs
        ((List.range n).map (fun (_ : ℕ) => (0 : α)))
      = (List.range n).map (fun (d : ℕ) => seasonSum np period pairs (d : α)) := by
  rw [seasonLoop_eq np period _ pairs 0 _ (by simp)]
  rw [List.zipWith_map, zipWith_same]
  apply List.map_congr_left
  intro d _
  simp [seasonSum]

theorem length_harmonicColumns {α : Type} [LinearOrderedField α] (np : NumpyOps α)
    (tag : String) (order : ℕ) (dayIdx : List α) (period : α) :
    (harmonicColumns np tag order dayIdx period).length = 2 * order := by
  unfold harmonicColumns
  rw [List.length_flatMap]
  induction order with
  | zero => simp
  | succ n ih =>
      rw [List.range_succ]
      simp only [List.map_append, List.sum_append, ih]
      simp
      omega

theorem getCol_mem {α : Type} (df : DataFrame α) (nm : String) (h : nm ∈ df.map Prod.fst) :
    ∃ vs, getCol df nm = some vs ∧ (nm, vs) ∈ df := by
  have hex : ∃ c ∈ df, (fun c => c.1 == nm) c = true := by
    obtain ⟨c, hc, hcn⟩ := List.mem_map.mp h
    exact ⟨c, hc, by simp [hcn]⟩
  have hsome := List.find?_isSome.mpr hex
  obtain ⟨c, hc⟩ := Option.isSome_iff_exists.mp hsome
  have hcmem := List.mem_of_find?_eq_some hc
  have hcp := List.find?_some hc
  simp only [beq_iff_eq] at hcp
  refine ⟨c.2, ?_, ?_⟩
  · unfold getCol
    rw [hc]
    rfl
  · have hpair : (nm, c.2) = c := by rw [← hcp]
    exact hpair ▸ hcmem

theorem harmonicColumns_bounded (tag : String) (order : ℕ) (dayIdx : List ℝ) (period : ℝ) :
    ∀ c ∈ harmonicColumns (⟨Real.sin, Real.cos, Real.pi⟩ : NumpyOps ℝ) tag order dayIdx period,
      c.2.length = dayIdx.length ∧ ∀ v ∈ c.2, ∃ x, v = Val.real x ∧ -1 ≤ x ∧ x ≤ 1 := by
  intro c hc
  unfold harmonicColumns at hc
  obtain ⟨k, _, hcmem⟩ := List.mem_flatMap.mp hc
  simp only [List.mem_cons, List.mem_singleton, List.not_mem_nil, or_false] at hcmem
  rcases hcmem with rfl | rfl
  · constructor
    · simp
    · intro v hv
      simp only [List.map_map, List.mem_map] at hv
      obtain ⟨dv, _, hveq⟩ := hv
      refine ⟨_, hveq.symm, ?_, ?_⟩
      · exact Real.neg_one_le_sin _
      · exact Real.sin_le_one _
  · constructor
    · simp
    · intro v hv
      simp only [List.map_map, List.mem_map] at hv
      obtain ⟨dv, _, hveq⟩ := hv
      refine ⟨_, hveq.symm, ?_, ?_⟩
      · exact Real.neg_one_le_cos _
      · exact Real.cos_le_one _

theorem getCol_transformNF_target {α : Type} [LinearOrderedField α] (self : Chronos)
    (np : NumpyOps α) (ts : List Timestamp) (ys : List (Val α)) (hs : self.Sensible) :
    getCol (transformNF self np ts ys) self.target_col_ = some ys := by
  obtain ⟨htc, hyc, htcyc, _⟩ := hs
  have h1 : (("CONST" : String) == self.target_col_) = false := by
    simp only [beq_eq_false_iff_ne, ne_eq]
    intro he
    exact hyc (he ▸ (by simp [Chronos.generatedNames]))
  have h2 : (self.time_col_ == self.target_col_) = false := by
    simp only [beq_eq_false_iff_ne, ne_eq]
    exact htcyc
  unfold transformNF getCol
  rw [List.find?_cons_of_neg _ (by simp [h1]), List.find?_cons_of_neg _ (by simp [h2]),
    List.find?_cons_of_pos _ (by simp)]
  rfl

theorem predictPrepare_ok {α : Type} [LinearOrderedField α] (self : Chronos) (np : NumpyOps α)
    (ts : List Timestamp) (ys : List (Val α)) (hs : self.Sensible) :
    self.predictPrepare np (mkSeries self.time_col_ self.target_col_ ts ys)
      = Except.ok (ys, dropCols (transformNF self np ts ys) [self.target_col_]) := by
  simp only [Chronos.predictPrepare]
  rw [transform_normal self np ts ys hs, getCol_transformNF_target self np ts ys hs]

theorem predictPrepare_missing {α : Type} [LinearOrderedField α] (self : Chronos)
    (np : NumpyOps α) (df : DataFrame α) (hs : self.Sensible)
    (hmiss : self.target_col_ ∉ df.map Prod.fst) :
    self.predictPrepare np df = Except.error ("KeyError: " ++ self.target_col_) := by
  have hnone : getCol (self.transform_data_ np df) self.target_col_ = none := by
    unfold getCol
    have hfn : (self.transform_data_ np df).find? (fun c => c.1 == self.target_col_) = none := by
      apply List.find?_eq_none.mpr
      intro c hc
      simp only [beq_iff_eq]
      intro he
      have hmem : self.target_col_ ∈ (self.transform_data_ np df).map Prod.fst :=
        he ▸ List.mem_map_of_mem Prod.fst hc
      rcases mem_names_transform self np df hmem with h | h | h
      · exact hmiss h
      · exact hs.2.1 h
      · exact hs.2.2.1 h.symm
    rw [hfn]
    rfl
  simp only [Chronos.predictPrepare]
  rw [hnone]

theorem predict_eq_of_prepare_ok {α : Type} [LinearOrderedField α] (self : Chronos)
    (np : NumpyOps α) (data : DataFrame α) (samples : List (List ℚ)) (ci : ℚ)
    {yv : List (Val α)} {X : DataFrame α}
    (hprep : self.predictPrepare np data = Except.ok (yv, X)) :
    self.predict np data samples ci
      = (if self.method_ = "MAP" ∨ self.method_ = "MLE" then
          match seqOpt ((List.range (samples.headD []).length).map
                  (fun j => kthvalue (sampleColumn samples j)
                    (pyInt ((samples.length : ℚ) * ((1 - ci) / 2))))),
                seqOpt ((List.range (samples.headD []).length).map
                  (fun j => kthvalue (sampleColumn samples j)
                    (pyInt ((samples.length : ℚ) * (1 - (1 - ci) / 2))))) with
          | some lower, some upper =>
              Except.ok
                { ds := getColD data self.time_col_, y := yv,
                  yhat := (List.range (samples.headD []).length).map
                    (fun j => listMean (sampleColumn samples j)),
                  yhat_upper := upper, yhat_lower := lower }
          | _, _ => Except.error ("kthvalue: k not in range")
        else Except.error ("Did not implement .predict for " ++ self.method_)) := by
  unfold Chronos.predict
  rw [hprep]

theorem predict_eq_of_prepare_error {α : Type} [LinearOrderedField α] (self : Chronos)
    (np : NumpyOps α) (data : DataFrame α) (samples : List (List ℚ)) (ci : ℚ) {e : String}
    (hprep : self.predictPrepare np data = Except.error e) :
    self.predict np data samples ci = Except.error e := by
  unfold Chronos.predict
  rw [hprep]

theorem map_fst_transformNF {α : Type} [LinearOrderedField α] (self : Chronos) (np : NumpyOps α)
    (ts : List Timestamp) (ys : List (Val α)) :
    (transformNF self np ts ys).map Prod.fst
      = "CONST" :: self.time_col_ :: self.target_col_
        :: (harmonicNames ("yearly") self.year_seasonality_order_
          ++ harmonicNames ("monthly") self.month_seasonality_order_
          ++ harmonicNames ("weekly") self.weekly_seasonality_order_) := by
  unfold transformNF
  simp [List.map_append, map_fst_harmonicColumns]

theorem sensible_harm_facts (self : Chronos) (hs : self.Sensible) :
    ∀ nm, (nm ∈ harmonicNames ("yearly") self.year_seasonality_order_
        ∨ nm ∈ harmonicNames ("monthly") self.month_seasonality_order_
        ∨ nm ∈ harmonicNames ("weekly") self.weekly_seasonality_order_) →
      nm ≠ "CONST" ∧ self.time_col_ ≠ nm ∧ self.target_col_ ≠ nm := by
  obtain ⟨htc, hyc, htcyc, hnodup⟩ := hs
  intro nm hnm
  have hgen : nm ∈ self.generatedNames := by
    simp only [Chronos.generatedNames, List.mem_append]
    rcases hnm with h | h | h
    · tauto
    · tauto
    · tauto
  refine ⟨?_, fun he => htc (he ▸ hgen), fun he => hyc (he ▸ hgen)⟩
  intro he
  rw [Chronos.generatedNames, List.append_assoc, List.append_assoc, List.nodup_append] at hnodup
  obtain ⟨_, _, hdisjBase⟩ := hnodup
  have hrest2 : nm ∈ harmonicNames ("yearly") self.year_seasonality_order_
      ++ (harmonicNames ("monthly") self.month_seasonality_order_
        ++ harmonicNames ("weekly") self.weekly_seasonality_order_) := by
    rcases hnm with h | h | h
    · exact List.mem_append_left _ h
    · exact List.mem_append_right _ (List.mem_append_left _ h)
    · exact List.mem_append_right _ (List.mem_append_right _ h)
  have hCbase : ("CONST" : String) ∈ (["CONST", "weekday", "monthday", "yearday"] : List String) := by
    simp
  exact hdisjBase hCbase (he ▸ hrest2)

theorem featureFilter_keep_harmonic (self : Chronos) (tag : String) (order : ℕ)
    (dayIdx : List ℝ) (period : ℝ)
    (hcond : ∀ nm ∈ harmonicNames tag order, self.time_col_ ≠ nm ∧ self.target_col_ ≠ nm) :
    (harmonicColumns (⟨Real.sin, Real.cos, Real.pi⟩ : NumpyOps ℝ) tag order dayIdx period).filter
        (fun c => !(c.1 == self.time_col_) && !(c.1 == self.target_col_))
      = harmonicColumns (⟨Real.sin, Real.cos, Real.pi⟩ : NumpyOps ℝ) tag order dayIdx period := by
  apply List.filter_eq_self.mpr
  intro c hc
  have hcn : c.1 ∈ harmonicNames tag order := by
    rw [← map_fst_harmonicColumns (⟨Real.sin, Real.cos, Real.pi⟩ : NumpyOps ℝ) tag order dayIdx
      period]
    exact List.mem_map_of_mem Prod.fst hc
  obtain ⟨ht1, ht2⟩ := hcond c.1 hcn
  simp only [Bool.and_eq_true, Bool.not_eq_eq_eq_not, Bool.not_true, beq_eq_false_iff_ne, ne_eq]
  exact ⟨fun he => ht1 he.symm, fun he => ht2 he.symm⟩

/-- Claim C1: on any series and any harmonic orders, the harmonic feature
builder produces, besides the two series columns, exactly 1 + 2(Y+M+W)
feature columns (the constant plus one sine and one cosine column per
frequency and order); every harmonic column is present with all of its
values real numbers inside [-1, 1]; and every output column has exactly as
many rows as the input series. -/
theorem transform_feature_columns (self : Chronos) (ts : List Timestamp) (ys : List (Val ℝ))
    (hs : self.Sensible) (hlen : ys.length = ts.length) :
    FeatureCountProp self ts ys := by
  have hsf := sensible_harm_facts self hs
  obtain ⟨htc, hyc, htcyc, hnodup⟩ := hs
  unfold FeatureCountProp
  rw [transform_normal self _ ts ys ⟨htc, hyc, htcyc, hnodup⟩]
  have hCtc : self.time_col_ ≠ "CONST" :=
    fun he => htc (he ▸ (by simp [Chronos.generatedNames]))
  have hCyc : self.target_col_ ≠ "CONST" :=
    fun he => hyc (he ▸ (by simp [Chronos.generatedNames]))
  refine ⟨?_, ?_, ?_, ?_⟩
  · unfold transformNF
    simp only [List.length_cons, List.length_append, length_harmonicColumns]
    omega
  · have hfeat : featureColumns self
        (transformNF self (⟨Real.sin, Real.cos, Real.pi⟩ : NumpyOps ℝ) ts ys)
        = ("CONST", List.replicate ts.length (Val.real 1))
          :: (harmonicColumns (⟨Real.sin, Real.cos, Real.pi⟩ : NumpyOps ℝ) ("yearly")
                self.year_seasonality_order_
                ((ts.map Val.ts).map (fun v => v.dayofyearR - 1)) 366
              ++ harmonicColumns (⟨Real.sin, Real.cos, Real.pi⟩ : NumpyOps ℝ) ("monthly")
                self.month_seasonality_order_
                ((ts.map Val.ts).map (fun v => v.dayR - 1)) 31
              ++ harmonicColumns (⟨Real.sin, Real.cos, Real.pi⟩ : NumpyOps ℝ) ("weekly")
                self.weekly_seasonality_order_
                ((ts.map Val.ts).map (fun v => v.dayofweekR)) 7) := by
      unfold featureColumns transformNF
      rw [List.filter_cons, List.filter_cons, List.filter_cons, List.filter_append,
        List.filter_append,
        featureFilter_keep_harmonic self _ _ _ _
          (fun nm h => ⟨(hsf nm (Or.inl h)).2.1, (hsf nm (Or.inl h)).2.2⟩),
        featureFilter_keep_harmonic self _ _ _ _
          (fun nm h => ⟨(hsf nm (Or.inr (Or.inl h))).2.1, (hsf nm (Or.inr (Or.inl h))).2.2⟩),
        featureFilter_keep_harmonic self _ _ _ _
          (fun nm h => ⟨(hsf nm (Or.inr (Or.inr h))).2.1, (hsf nm (Or.inr (Or.inr h))).2.2⟩)]
      rw [if_pos (by simp only [Bool.and_eq_true, Bool.not_eq_eq_eq_not, Bool.not_true, beq_eq_false_iff_ne, ne_eq]; exact ⟨fun he => hCtc he.symm, fun he => hCyc he.symm⟩)]
      rw [if_neg (by simp)]
      rw [if_neg (by simp)]
    rw [hfeat]
    simp only [List.length_cons, List.length_append, length_harmonicColumns]
    omega
  · intro nm hnm
    have hnm3 : nm ∈ harmonicNames ("yearly") self.year_seasonality_order_
        ∨ nm ∈ harmonicNames ("monthly") self.month_seasonality_order_
        ∨ nm ∈ harmonicNames ("weekly") self.weekly_seasonality_order_ := by
      rcases List.mem_append.mp hnm with h | h
      · rcases List.mem_append.mp h with h1 | h1
        · exact Or.inl h1
        · exact Or.inr (Or.inl h1)
      · exact Or.inr (Or.inr h)
    have hmemnames : nm ∈ (transformNF self (⟨Real.sin, Real.cos, Real.pi⟩ : NumpyOps ℝ)
        ts ys).map Prod.fst := by
      rw [map_fst_transformNF]
      simp only [List.mem_cons]
      right; right; right
      exact hnm
    obtain ⟨vs, hget, hmem⟩ := getCol_mem _ nm hmemnames
    refine ⟨vs, hget, ?_⟩
    unfold transformNF at hmem
    rcases List.mem_cons.mp hmem with hCc | hmem2
    · exact absurd (congrArg Prod.fst hCc) (hsf nm hnm3).1
    rcases List.mem_cons.mp hmem2 with hTc | hmem3
    · exact absurd (congrArg Prod.fst hTc).symm (hsf nm hnm3).2.1
    rcases List.mem_cons.mp hmem3 with hYc | hmem4
    · exact absurd (congrArg Prod.fst hYc).symm (hsf nm hnm3).2.2
    rcases List.mem_append.mp hmem4 with h | h
    · rcases List.mem_append.mp h with h1 | h1
      · obtain ⟨hl, hb⟩ := harmonicColumns_bounded _ _ _ _ _ h1
        exact ⟨by simpa using hl, hb⟩
      · obtain ⟨hl, hb⟩ := harmonicColumns_bounded _ _ _ _ _ h1
        exact ⟨by simpa using hl, hb⟩
    · obtain ⟨hl, hb⟩ := harmonicColumns_bounded _ _ _ _ _ h
      exact ⟨by simpa using hl, hb⟩
  · intro c hc
    unfold transformNF at hc
    rcases List.mem_cons.mp hc with rfl | hc2
    · simp
    rcases List.mem_cons.mp hc2 with rfl | hc3
    · simp
    rcases List.mem_cons.mp hc3 with rfl | hc4
    · exact hlen
    rcases List.mem_append.mp hc4 with h | h
    · rcases List.mem_append.mp h with h1 | h1
      · obtain ⟨hl, _⟩ := harmonicColumns_bounded _ _ _ _ _ h1
        simpa using hl
      · obtain ⟨hl, _⟩ := harmonicColumns_bounded _ _ _ _ _ h1
        simpa using hl
    · obtain ⟨hl, _⟩ := harmonicColumns_bounded _ _ _ _ _ h
      simpa using hl

theorem transform_feature_columns_witness :
    chronosMLE.Sensible ∧ ([Val.nan] : List (Val ℝ)).length = ([t0] : List Timestamp).length
      ∧ FeatureCountProp chronosMLE [t0] [Val.nan] :=
  ⟨by decide, rfl, transform_feature_columns chronosMLE [t0] [Val.nan] (by decide) rfl⟩

/-- Claim C6: the output columns of the harmonic feature builder appear in
the fixed order constant, time, target, then all yearly sin/cos pairs in
ascending harmonic order, then all monthly pairs, then all weekly pairs;
the constant-then-yearly-then-monthly-then-weekly sequence is a sublist of
that order, and the construction is deterministic on identical inputs. -/
theorem transform_column_order (self : Chronos) (ts : List Timestamp) (ys : List (Val ℝ))
    (hs : self.Sensible) : ColumnOrderProp self ts ys := by
  simp only [ColumnOrderProp]
  rw [transform_normal self _ ts ys hs, map_fst_transformNF]
  refine ⟨rfl, ?_, ?_⟩
  · exact List.Sublist.cons₂ _ (((List.Sublist.refl _).cons _).cons _)
  · intro ts2 ys2 h2 h3
    rw [h2, h3]
    exact transform_normal self _ ts ys hs

theorem transform_column_order_witness :
    chronosMLE.Sensible ∧ ColumnOrderProp chronosMLE [t0] [Val.nan] :=
  ⟨by decide, transform_column_order chronosMLE [t0] [Val.nan] (by decide)⟩

/-- Claim C7: the three seasonality decompositions return exactly the
closed-form harmonic sums: for every stored parameter vector and design
column names, the weekly table pairs each day index d = 0..6 (0 = Monday)
with the sum over the selected (sin, cos) coefficient pairs of
sin_coef * sin(order * 2 * pi * d / 7) + cos_coef * cos(...), pair i
carrying order i + 1; the monthly table uses phase denominator 30 over day
indices 0..30 reported 1-based; the yearly table uses 366 over 0..365
reported 1-based. -/
theorem seasonality_decomposition_values (params : List ℝ) (xnames : List String) :
    get_weekly_seasonality_point (⟨Real.sin, Real.cos, Real.pi⟩ : NumpyOps ℝ) params xnames
        = (List.range 7).map (fun (d : ℕ) => (d,
            seasonSum (⟨Real.sin, Real.cos, Real.pi⟩ : NumpyOps ℝ) 7
              (seasonParams params xnames ("weekly")) (d : ℝ)))
      ∧ get_monthly_seasonality_point (⟨Real.sin, Real.cos, Real.pi⟩ : NumpyOps ℝ) params xnames
        = (List.range 31).map (fun (d : ℕ) => (d + 1,
            seasonSum (⟨Real.sin, Real.cos, Real.pi⟩ : NumpyOps ℝ) 30
              (seasonParams params xnames ("monthly")) (d : ℝ)))
      ∧ get_yearly_seasonality_point (⟨Real.sin, Real.cos, Real.pi⟩ : NumpyOps ℝ) params xnames
        = (List.range 366).map (fun (d : ℕ) => (d + 1,
            seasonSum (⟨Real.sin, Real.cos, Real.pi⟩ : NumpyOps ℝ) 366
              (seasonParams params xnames ("yearly")) (d : ℝ))) := by
  refine ⟨?_, ?_, ?_⟩
  · simp only [get_weekly_seasonality_point]
    rw [seasonality_values, zip_map_self]
  · simp only [get_monthly_seasonality_point]
    rw [seasonality_values, List.zip_map']
  · simp only [get_yearly_seasonality_point]
    rw [seasonality_values, List.zip_map']

/-- Claim C8: the harmonic feature builder does not mutate the frame the
caller passes in.  In the state-passing model of the call, the second
component (the state of the argument frame after the call) is the frame
unchanged, and the first is the freshly built output; this reflects the
copy taken on line 65 before any column is written. -/
theorem transform_no_mutation (self : Chronos) (data : DataFrame ℝ) :
    (self.transform_data_call (⟨Real.sin, Real.cos, Real.pi⟩ : NumpyOps ℝ) data).2 = data
      ∧ (self.transform_data_call (⟨Real.sin, Real.cos, Real.pi⟩ : NumpyOps ℝ) data).1
        = self.transform_data_ (⟨Real.sin, Real.cos, Real.pi⟩ : NumpyOps ℝ) data :=
  ⟨rfl, rfl⟩

/-- Claim C9: for every configured method outside MLE and MAP, fit falls
into the branch that reads the nonexistent attribute self.method (only
self.method_ is ever assigned), so fit raises AttributeError: it neither
completes silently nor reaches the MCMC stub. -/
theorem fit_unsupported_attribute_error (self : Chronos)
    (h1 : self.method_ ≠ "MLE") (h2 : self.method_ ≠ "MAP") :
    self.fitDispatch = FitOutcome.attributeError ("method") := by
  unfold Chronos.fitDispatch
  rw [if_neg]
  · rfl
  · rintro (h | h)
    · exact h1 h
    · exact h2 h

theorem fit_unsupported_attribute_error_witness :
    chronosMCMC.method_ ≠ "MLE" ∧ chronosMCMC.method_ ≠ "MAP"
      ∧ chronosMCMC.fitDispatch = FitOutcome.attributeError ("method") :=
  ⟨by decide, by decide,
    fit_unsupported_attribute_error chronosMCMC (by decide) (by decide)⟩

/-- Claim C3 (code bug): make_future_dataframe accepts include_history but
never reads it: the output is identical for include_history = false and
true, and on a one-row history with period 1 and include_history = false
the result still has 2 rows (history plus the new row) where the claim
expects only the 1 new row.  The new rows do carry NaN targets and exclude
the anchor date, but the flag has no effect. -/
theorem make_future_ignores_include_history :
    (∀ (self : Chronos) (cal : Calendar) (hist : DataFrame ℝ) (p : ℕ),
        self.make_future_dataframe cal hist p false = self.make_future_dataframe cal hist p true)
      ∧ nRows hist0 = 1
      ∧ nRows (chronosMLE.make_future_dataframe cal0 hist0 1 false) = 2
      ∧ nRows (chronosMLE.make_future_dataframe cal0 hist0 1 false) ≠ 1 :=
  ⟨fun _ _ _ _ => rfl, rfl, rfl, by decide⟩

/-- Claim C4: for every configured method outside MLE and MAP, predict and
the weekly, monthly and yearly seasonality getters all raise their explicit
not-implemented errors instead of returning a result. -/
theorem unsupported_method_not_implemented (self : Chronos) (store : String → List ℝ)
    (xnames : List String) (ts : List Timestamp) (ys : List (Val ℝ))
    (samples : List (List ℚ)) (ci : ℚ) (hs : self.Sensible)
    (h1 : self.method_ ≠ "MLE") (h2 : self.method_ ≠ "MAP") :
    UnsupportedErrorsProp self store xnames ts ys samples ci := by
  have hcond : ¬(self.method_ = "MAP" ∨ self.method_ = "MLE") := by
    rintro (h | h)
    · exact h2 h
    · exact h1 h
  unfold UnsupportedErrorsProp
  refine ⟨?_, ?_, ?_, ?_⟩
  · rw [predict_eq_of_prepare_ok self _ _ samples ci (predictPrepare_ok self _ ts ys hs)]
    rw [if_neg hcond]
  · unfold Chronos.get_weekly_seasonality
    rw [if_neg h2, if_neg h1]
  · unfold Chronos.get_monthly_seasonality
    rw [if_neg h2, if_neg h1]
  · unfold Chronos.get_yearly_seasonality
    rw [if_neg h2, if_neg h1]

theorem unsupported_method_not_implemented_witness :
    chronosMCMC.Sensible ∧ chronosMCMC.method_ ≠ "MLE" ∧ chronosMCMC.method_ ≠ "MAP"
      ∧ UnsupportedErrorsProp chronosMCMC (fun _ => []) [] [t0] [Val.nan] [[1]] (1 / 2) :=
  ⟨by decide, by decide, by decide,
    unsupported_method_not_implemented chronosMCMC (fun _ => []) [] [t0] [Val.nan] [[1]] (1 / 2)
      (by decide) (by decide) (by decide)⟩

/-- Counterexample to claim C10 as stated: the concrete frame with a
datetime ds column and a CONST column, and no target column, is an input
frame lacking the configured target column on which predict does not raise
a key-lookup error: line 98's insert of the constant column hits the
existing CONST column and raises ValueError before the target lookup of
line 272 is ever reached. -/
theorem predict_missing_target_cex :
    chronosMLE.predict_run (⟨Real.sin, Real.cos, Real.pi⟩ : NumpyOps ℝ)
        ([(("ds" : String), [Val.ts t0]), (("CONST" : String), [Val.nan])] : DataFrame ℝ)
        [[1]] (1 / 2)
        = Except.error ("ValueError: cannot insert CONST, already exists")
      ∧ ("ValueError: cannot insert CONST, already exists")
        ≠ "KeyError: " ++ chronosMLE.target_col_ := by
  constructor
  · rfl
  · decide

/-- Claim C10, amended: predict requires the configured target column to be
present even though the target values are not used to compute the forecast.
For every input frame that the harmonic transform processes without raising
(time column present exactly once with datetime values and no CONST
column) and which lacks the target column, predict fails with the key
lookup error for the target column before any prediction is produced,
while a series whose target column is entirely NaN passes the extraction;
on frames the transform rejects, predict fails earlier with the transform's
own exception instead. -/
theorem predict_requires_target_column (self : Chronos) (df : DataFrame ℝ)
    (ts : List Timestamp) (samples : List (List ℚ)) (ci : ℚ)
    (hs : self.Sensible) (hmiss : self.target_col_ ∉ df.map Prod.fst)
    (hok : self.transformError df = none) :
    MissingTargetProp self df ts samples ci := by
  unfold MissingTargetProp
  constructor
  · unfold Chronos.predict_run
    rw [hok]
    exact predict_eq_of_prepare_error self _ df samples ci
      (predictPrepare_missing self _ df hs hmiss)
  · exact ⟨_, predictPrepare_ok self _ ts _ hs⟩

theorem predict_requires_target_column_witness :
    chronosMLE.Sensible
      ∧ chronosMLE.target_col_ ∉ ([(("ds" : String), [Val.ts t0])] : DataFrame ℝ).map Prod.fst
      ∧ chronosMLE.transformError ([(("ds" : String), [Val.ts t0])] : DataFrame ℝ) = none
      ∧ MissingTargetProp chronosMLE [(("ds" : String), [Val.ts t0])] [t0] [[1]] (1 / 2) :=
  ⟨by decide, by decide, by decide,
    predict_requires_target_column chronosMLE [(("ds" : String), [Val.ts t0])] [t0] [[1]] (1 / 2)
      (by decide) (by decide) (by decide)⟩

/-- Claim C5: with a non-empty history, periods = 30, daily frequency and
include_history = true, the future frame has the history row count plus 30
rows in every column, the time column is the history stamps followed by the
30 new stamps, and the new stamps are strictly increasing and each strictly
later than the maximum historical stamp, which itself bounds every history
stamp. -/
theorem make_future_thirty_days (self : Chronos) (cal : Calendar) (ts : List Timestamp)
    (ys : List (Val ℝ)) (hne : ts ≠ []) (hlen : ys.length = ts.length)
    (htcyc : self.time_col_ ≠ self.target_col_) :
    FutureFrameProp self cal ts ys := by
  have _ := hne
  simp only [FutureFrameProp]
  simp only [Chronos.make_future_dataframe]
  rw [getColD_mkSeries_time (α := ℝ) self.time_col_ self.target_col_ ts ys]
  rw [show (date_range_D cal (maxTs (α := ℝ) (ts.map Val.ts)) (30 + 1)).drop 1
      = futureStamps cal (maxTs (α := ℝ) (ts.map Val.ts)) 30 from rfl]
  have hget1 : ∀ (x r : List (Val ℝ)),
      getColD ([(self.time_col_, x), (self.target_col_, r)] : DataFrame ℝ) self.time_col_ = x := by
    intro x r
    unfold getColD getCol
    rw [List.find?_cons_of_pos _ (by simp)]
    rfl
  have hget2 : ∀ (x r : List (Val ℝ)),
      getColD ([(self.time_col_, x), (self.target_col_, r)] : DataFrame ℝ) self.target_col_
        = r := by
    intro x r
    unfold getColD getCol
    rw [List.find?_cons_of_neg _ (by simp [htcyc]), List.find?_cons_of_pos _ (by simp)]
    rfl
  simp only [concatFrames, mkSeries, List.map_cons, List.map_nil]
  rw [hget1, hget2]
  have hlen30 : (futureStamps cal (maxTs (α := ℝ) (ts.map Val.ts)) 30).length = 30 := by
    rw [futureStamps_eq]
    simp
  have hd : (0 : ℤ) < dayNanos := by norm_num [dayNanos]
  refine ⟨?_, hlen30, ?_, ?_, ?_, ?_⟩
  · intro c hc
    rcases List.mem_cons.mp hc with rfl | hc2
    · simp [hlen30]
    rcases List.mem_cons.mp hc2 with rfl | hc3
    · simp [hlen, hlen30]
    · cases hc3
  · unfold getCol
    rw [List.find?_cons_of_pos _ (by simp)]
    rfl
  · rw [futureStamps_eq, List.chain'_map]
    apply List.Pairwise.chain'
    apply (List.pairwise_lt_range 30).imp
    intro i j hij
    simp only [Calendar.stamp]
    have hlt : ((i : ℤ) + 1) < ((j : ℤ) + 1) := by omega
    exact add_lt_add_left (mul_lt_mul_of_pos_right hlt hd) _
  · intro t ht
    rw [futureStamps_eq] at ht
    obtain ⟨i, _, rfl⟩ := List.mem_map.mp ht
    simp only [Calendar.stamp]
    have hpos : (0 : ℤ) < ((i : ℤ) + 1) * dayNanos := by
      apply mul_pos _ hd
      positivity
    exact lt_add_of_pos_right _ hpos
  · intro t ht
    exact le_maxTs ht

theorem make_future_thirty_days_witness :
    ([t0] : List Timestamp) ≠ [] ∧ ([Val.nan] : List (Val ℝ)).length = [t0].length
      ∧ chronosMLE.time_col_ ≠ chronosMLE.target_col_
      ∧ FutureFrameProp chronosMLE cal0 [t0] [Val.nan] :=
  ⟨by decide, rfl, by decide,
    make_future_thirty_days chronosMLE cal0 [t0] [Val.nan] (by decide) rfl (by decide)⟩

/-- Counterexample to claim C2 as stated: at a concrete point-estimate
configuration, one input row, sample count 5 and confidence level 1/5
(strictly between 0 and 1), predict returns yhat = 20 with
yhat_upper = 0 (and yhat_lower = 0): the point forecast, the sample mean,
lies strictly above the selected upper order statistic, so
yhat_lower ≤ yhat ≤ yhat_upper fails on that row. -/
theorem intFloor_eq_ratFloor (q : ℚ) : ⌊q⌋ = q.floor := rfl

theorem predict_mean_outside_interval_cex :
    predictNumbers (chronosMLE.predict (⟨Real.sin, Real.cos, Real.pi⟩ : NumpyOps ℝ)
        (mkSeries chronosMLE.time_col_ chronosMLE.target_col_ [t0] [Val.nan]) cexSamples (1 / 5))
        = some ([20], [0], [0])
      ∧ ¬ ((20 : ℚ) ≤ 0) := by
  constructor
  · have hprep := predictPrepare_ok chronosMLE (⟨Real.sin, Real.cos, Real.pi⟩ : NumpyOps ℝ)
      [t0] [Val.nan] (by decide)
    rw [predict_eq_of_prepare_ok chronosMLE _ _ cexSamples (1 / 5) hprep,
      if_pos (by decide : chronosMLE.method_ = "MAP" ∨ chronosMLE.method_ = "MLE")]
    have hlo : pyInt ((cexSamples.length : ℚ) * ((1 - 1 / 5) / 2)) = 2 := by
      have h1 : ((cexSamples.length : ℚ) * ((1 - 1 / 5) / 2)) = 2 := by
        norm_num [cexSamples]
      rw [h1]
      unfold pyInt
      rw [if_pos (by norm_num), ← intFloor_eq_ratFloor]
      norm_num
    have hhi : pyInt ((cexSamples.length : ℚ) * (1 - (1 - 1 / 5) / 2)) = 3 := by
      have h1 : ((cexSamples.length : ℚ) * (1 - (1 - 1 / 5) / 2)) = 3 := by
        norm_num [cexSamples]
      rw [h1]
      unfold pyInt
      rw [if_pos (by norm_num), ← intFloor_eq_ratFloor]
      norm_num
    rw [hlo, hhi]
    have hnr : (cexSamples.headD []).length = 1 := rfl
    rw [hnr]
    have hcol : sampleColumn cexSamples 0 = [0, 0, 0, 0, 100] := rfl
    have hk2 : kthvalue [0, 0, 0, 0, (100 : ℚ)] 2 = some 0 := rfl
    have hk3 : kthvalue [0, 0, 0, 0, (100 : ℚ)] 3 = some 0 := rfl
    have hmean : listMean [0, 0, 0, 0, (100 : ℚ)] = 20 := by
      norm_num [listMean]
    rw [show List.range 1 = [0] from rfl]
    simp only [List.map_cons, List.map_nil, hcol]
    rw [hk2, hk3]
    simp only [seqOpt, Option.map_some, hmean]
    rfl
  · decide

/-- Claim C2, amended: for a fitted point-estimate model, whenever the
lower rank int(n*(1-ci)/2) is at least 1 (so the torch kthvalue calls are
in range), predict succeeds and returns bounds with
yhat_lower ≤ yhat_upper on every row; the point forecast (the sample mean)
need not lie inside the interval, and for tail ranks of 0 predict fails in
kthvalue instead of returning an interval. -/
theorem predict_interval_bounds (self : Chronos) (ts : List Timestamp) (ys : List (Val ℝ))
    (samples : List (List ℚ)) (ci : ℚ) (hs : self.Sensible)
    (hm : self.method_ = "MAP" ∨ self.method_ = "MLE") (hci0 : 0 < ci) (hci1 : ci < 1)
    (hk : 1 ≤ pyInt ((samples.length : ℚ) * ((1 - ci) / 2))) :
    IntervalProp self (mkSeries self.time_col_ self.target_col_ ts ys) samples ci := by
  simp only [IntervalProp]
  rw [predict_eq_of_prepare_ok self _ _ samples ci (predictPrepare_ok self _ ts ys hs)]
  rw [if_pos hm]
  have hcast : (0 : ℚ) ≤ (samples.length : ℚ) := Nat.cast_nonneg _
  have hsp0 : (0 : ℚ) < (1 - ci) / 2 := by linarith
  have hsp1 : (1 - ci) / 2 ≤ 1 - (1 - ci) / 2 := by linarith
  have hq1 : (0 : ℚ) ≤ (samples.length : ℚ) * ((1 - ci) / 2) := by positivity
  have hq2 : (0 : ℚ) ≤ (samples.length : ℚ) * (1 - (1 - ci) / 2) :=
    mul_nonneg hcast (by linarith)
  have hl : pyInt ((samples.length : ℚ) * ((1 - ci) / 2))
      = ⌊(samples.length : ℚ) * ((1 - ci) / 2)⌋ := by
    unfold pyInt
    rw [if_pos hq1]
    exact (intFloor_eq_ratFloor _).symm
  have hu : pyInt ((samples.length : ℚ) * (1 - (1 - ci) / 2))
      = ⌊(samples.length : ℚ) * (1 - (1 - ci) / 2)⌋ := by
    unfold pyInt
    rw [if_pos hq2]
    exact (intFloor_eq_ratFloor _).symm
  have hlu : pyInt ((samples.length : ℚ) * ((1 - ci) / 2))
      ≤ pyInt ((samples.length : ℚ) * (1 - (1 - ci) / 2)) := by
    rw [hl, hu]
    exact Int.floor_le_floor (mul_le_mul_of_nonneg_left hsp1 hcast)
  have hun : pyInt ((samples.length : ℚ) * (1 - (1 - ci) / 2)) ≤ (samples.length : ℤ) := by
    rw [hu]
    have hle : (samples.length : ℚ) * (1 - (1 - ci) / 2) ≤ ((samples.length : ℚ)) := by
      nlinarith
    calc ⌊(samples.length : ℚ) * (1 - (1 - ci) / 2)⌋ ≤ ⌊((samples.length : ℚ))⌋ :=
          Int.floor_le_floor hle
      _ = (samples.length : ℤ) := Int.floor_natCast _
  have hrow : ∀ j ∈ List.range (samples.headD []).length,
      ∃ a b, kthvalue (sampleColumn samples j)
          (pyInt ((samples.length : ℚ) * ((1 - ci) / 2))) = some a
        ∧ kthvalue (sampleColumn samples j)
          (pyInt ((samples.length : ℚ) * (1 - (1 - ci) / 2))) = some b ∧ a ≤ b := by
    intro j _
    have hcl : (sampleColumn samples j).length = samples.length := by simp [sampleColumn]
    apply kthvalue_pair
    · exact hk
    · exact hlu
    · rw [hcl]
      exact hun
  obtain ⟨v, w, hv, hw, hvw⟩ := seqOpt_pair (List.range (samples.headD []).length) _ _ hrow
  rw [hv, hw]
  exact ⟨_, rfl, hvw⟩

theorem predict_interval_bounds_witness :
    chronosMLE.Sensible ∧ (0 : ℚ) < 1 / 2 ∧ (1 / 2 : ℚ) < 1
      ∧ 1 ≤ pyInt ((quadSamples.length : ℚ) * ((1 - 1 / 2) / 2))
      ∧ IntervalProp chronosMLE
          (mkSeries chronosMLE.time_col_ chronosMLE.target_col_ [t0] [Val.nan])
          quadSamples (1 / 2) :=
  ⟨by decide, by norm_num, by norm_num,
    by
      have h1 : ((quadSamples.length : ℚ) * ((1 - 1 / 2) / 2)) = 1 := by norm_num [quadSamples]
      rw [h1]
      unfold pyInt
      rw [if_pos (by norm_num), ← intFloor_eq_ratFloor]
      norm_num,
    predict_interval_bounds chronosMLE [t0] [Val.nan] quadSamples (1 / 2) (by decide)
      (by decide) (by norm_num) (by norm_num)
      (by
        have h1 : ((quadSamples.length : ℚ) * ((1 - 1 / 2) / 2)) = 1 := by norm_num [quadSamples]
        rw [h1]
        unfold pyInt
        rw [if_pos (by norm_num), ← intFloor_eq_ratFloor]
        norm_num)⟩
